import Mathlib

/-!
Verification of the text-anonymizer detection-orchestration and
dynamic-configuration subsystem.

Python strings are modelled as `List Char` (`Str`); filesystem paths as
lists of path components; machine floats used as mtimes are modelled as
opaque `Nat` tokens (only equality of mtimes is ever consulted by the
code); scores are modelled as `ℚ`.  Fallible code returns `Except`.
External collaborators (the spaCy matcher, the fuzzywuzzy ratio, the
presidio pipeline downstream of recognizer dispatch, filesystem
resolution) are modelled at their boundary, as the spec prescribes.
-/

namespace TextAnonymizer

/-- Python `str` modelled as a list of characters. -/
abbrev Str := List Char

/-- ASCII whitespace as recognized by Python's `str.strip()` /
`str.split()` (space, tab, newline, carriage return, vertical tab,
form feed). -/
def isPySpace (c : Char) : Bool :=
  c = ' ' || c = '\t' || c = '\n' || c = '\r' || c = '\x0b' || c = '\x0c'

/-- Drop trailing characters satisfying `p` (helper for `pyStrip`). -/
def dropTrailing (p : Char → Bool) (s : Str) : Str :=
  (s.reverse.dropWhile p).reverse

/-- Python `str.strip()`: remove leading and trailing whitespace. -/
def pyStrip (s : Str) : Str :=
  dropTrailing isPySpace (s.dropWhile isPySpace)

/-- Python `str.lower()` (ASCII case folding suffices for the
configuration data handled here). -/
def lowerStr (s : Str) : Str := s.map Char.toLower

/-- Characters admitted by the profile-name pattern `^[a-zA-Z0-9_-]+$`
of `ProfileConfigProvider.validate_profile_name`. -/
def isAllowedChar (c : Char) : Bool :=
  c.isAlpha || c.isDigit || c = '_' || c = '-'

/-- Error raised on invalid profile names
(`InvalidProfileNameError` in `profile_config_provider.py`). -/
inductive ProfileError
  | invalidProfileName
deriving DecidableEq, Repr

/-- `ProfileConfigProvider.MAX_PROFILE_NAME_LENGTH`. -/
def MAX_PROFILE_NAME_LENGTH : Nat := 50

/-- Shallow embedding of
`ProfileConfigProvider.validate_profile_name` (profile_config_provider.py,
lines 41-87).  The argument is `Option Str` so that Python's `None` is
representable; `none` and the empty string are rejected by the
`not profile_name` truthiness check.  The name is stripped
(`profile_name = profile_name.strip()` rebinds the local; the embedding
repeats `pyStrip s` instead of rebinding), the length check runs on the
stripped name, then the character-class check, the `..`/`/`/`\` check
and the leading-dot check run in source order. -/
def validate_profile_name (profileName : Option Str) : Except ProfileError Str :=
  match profileName with
  | none => .error .invalidProfileName
  | some s =>
    if s = [] then .error .invalidProfileName
    else if (pyStrip s).length > MAX_PROFILE_NAME_LENGTH then
      .error .invalidProfileName
    else if ¬ (pyStrip s ≠ [] ∧ ∀ c ∈ pyStrip s, isAllowedChar c) then
      .error .invalidProfileName
    else if ['.', '.'] <:+: pyStrip s ∨ '/' ∈ pyStrip s ∨ '\\' ∈ pyStrip s then
      .error .invalidProfileName
    else if (pyStrip s).headD ' ' = '.' then .error .invalidProfileName
    else .ok (pyStrip s)

/-- Shallow embedding of `ProfileConfigProvider.get_safe_profile_path`
(profile_config_provider.py, lines 89-119).  Paths are lists of
components; `resolveFn` models `pathlib.Path.resolve` (an external,
filesystem-dependent operation: symlink chasing, `..` elimination), and
is an arbitrary function so the theorem covers every filesystem
behaviour.  `relative_to` is pathlib's lexical containment check:
it succeeds exactly when the base path's components are a prefix of the
candidate's components.  The validated name contains no separators, so
`base / name` appends a single component. -/
def get_safe_profile_path (resolveFn : List Str → List Str)
    (profileName : Option Str) (baseConfigDir : List Str) :
    Except ProfileError (List Str) := do
  let v ← validate_profile_name profileName
  let basePath := resolveFn baseConfigDir
  let profilePath := resolveFn (basePath ++ [v])
  if basePath <+: profilePath then
    pure profilePath
  else
    throw .invalidProfileName

/-! ## ConfigCache (config_cache.py) -/

/-- One `{name, pattern, score}` entry of a `regex_patterns.json` group,
as it appears in the JSON file (all keys optional; defaults are applied
by `_convert_json_to_patterns`). -/
structure PatternCfg where
  name : Option Str
  pattern : Option Str
  score : Option ℚ
deriving DecidableEq

/-- A presidio `Pattern` built by `_convert_json_to_patterns`. -/
structure PatternDef where
  name : Str
  regex : Str
  score : ℚ
deriving DecidableEq

/-- `_convert_json_to_patterns` (config_cache.py, lines 14-28): apply the
defaults `"unnamed"`, `""` and `0.85` to each entry of each group. -/
def convert_json_to_patterns (config : List (Str × List PatternCfg)) :
    List (Str × List PatternDef) :=
  config.map fun g =>
    (g.1, g.2.map fun p =>
      ⟨p.name.getD "unnamed".toList, p.pattern.getD [], p.score.getD (85/100)⟩)

/-- Content of an on-disk configuration file.  Text files carry their raw
lines; JSON files carry the parse result, `none` standing for malformed
content (`json.JSONDecodeError`/`ValueError` in `_read_regex_patterns`). -/
inductive FileContent
  | textFile (lines : List Str)
  | jsonFile (parsed : Option (List (Str × List PatternCfg)))
deriving DecidableEq

/-- An on-disk file: a modification time (an opaque token — the code only
ever compares mtimes for equality) and content. -/
structure FileData where
  mtime : Nat
  content : FileContent
deriving DecidableEq

/-- The outcome of `path.stat()` on one path: success, the
`FileNotFoundError` of a well-formed but absent path, or any other
stat failure — `OSError` such as `ENAMETOOLONG` for a path component
longer than the OS limit, `ENOTDIR`, or `ValueError` for an embedded
NUL byte in the path. -/
inductive StatResult
  | found (f : FileData)
  | missing
  | statError
deriving DecidableEq

/-- The filesystem under the configuration root: a map from absolute
paths (component lists) to stat outcomes. -/
def FS := List Str → StatResult

/-- The uncaught exception escaping `ConfigCache._safe_mtime` (an
`OSError` other than `FileNotFoundError`, or a `ValueError`). -/
inductive OsError
  | osError
deriving DecidableEq, Repr

/-- `ConfigCache._safe_mtime` (config_cache.py, lines 200-205): the
file's mtime, or `None` when `path.stat()` raises `FileNotFoundError`.
Only `FileNotFoundError` is caught: any other stat failure (e.g.
`OSError ENAMETOOLONG` for an over-long name component, `ValueError`
for an embedded NUL byte) propagates to the caller. -/
def safe_mtime (fs : FS) (path : List Str) : Except OsError (Option Nat) :=
  match fs path with
  | .found f => .ok (some f.mtime)
  | .missing => .ok none
  | .statError => .error .osError

/-- `ConfigCache._read_list_file` (config_cache.py, lines 167-181): one
entry per line, stripped and lower-cased, blank lines and `#`-comment
lines ignored; a missing file yields the empty list.  `Path.exists()`
returns `False` when stat fails, so an unstattable path also yields
the empty list (the getters only reach this read after `_safe_mtime`
succeeded on the same path). -/
def read_list_file (fs : FS) (path : List Str) : List Str :=
  match fs path with
  | .found f =>
    match f.content with
    | .textFile ls =>
      ((ls.map pyStrip).filter fun t => t ≠ [] ∧ t.headD ' ' ≠ '#').map lowerStr
    | .jsonFile _ => []
  | .missing => []
  | .statError => []

/-- `ConfigCache._read_regex_patterns` (config_cache.py, lines 183-193):
parse the JSON mapping, treating a missing or malformed file as empty
(fail-open); as with `read_list_file`, an unstattable path reads as
empty via the `Path.exists()` guard. -/
def read_regex_patterns (fs : FS) (path : List Str) :
    List (Str × List PatternDef) :=
  match fs path with
  | .found f =>
    match f.content with
    | .jsonFile (some cfg) => convert_json_to_patterns cfg
    | .jsonFile none => []
    | .textFile _ => []
  | .missing => []
  | .statError => []

/-- The mutable state of the `ConfigCache` singleton (config_cache.py,
lines 36-53).  Python dicts are modelled as functions to `Option`
(`none` = key absent); the per-profile mtime dicts store an
`Optional[float]` value, hence the nested `Option`.  Profile list values
are stored as `set(...)`; sets are modelled as deduplicated lists (only
membership and emptiness of these values are ever consulted). -/
structure ConfigCacheState where
  configDir : List Str
  defaultBlocklist : Option (List Str)
  defaultBlocklistMtime : Option Nat
  defaultGrantlist : Option (List Str)
  defaultGrantlistMtime : Option Nat
  defaultRegexPatterns : Option (List (Str × List PatternDef))
  defaultRegexMtime : Option Nat
  profileBlocklists : Str → Option (List Str)
  profileBlocklistsMtime : Str → Option (Option Nat)
  profileGrantlists : Str → Option (List Str)
  profileGrantlistsMtime : Str → Option (Option Nat)
  profileRegexPatterns : Str → Option (List (Str × List PatternDef))
  profileRegexMtime : Str → Option (Option Nat)

/-- A fresh `ConfigCache` (the `__init__` state, all caches empty). -/
def ConfigCacheState.init (configDir : List Str) : ConfigCacheState where
  configDir := configDir
  defaultBlocklist := none
  defaultBlocklistMtime := none
  defaultGrantlist := none
  defaultGrantlistMtime := none
  defaultRegexPatterns := none
  defaultRegexMtime := none
  profileBlocklists := fun _ => none
  profileBlocklistsMtime := fun _ => none
  profileGrantlists := fun _ => none
  profileGrantlistsMtime := fun _ => none
  profileRegexPatterns := fun _ => none
  profileRegexMtime := fun _ => none

/-- Pointwise dict update `d[k] = v`. -/
def upd {V : Type} (m : Str → Option V) (k : Str) (v : V) : Str → Option V :=
  fun q => if q = k then some v else m q

/-- Pointwise dict removal `d.pop(k, None)`. -/
def rem {V : Type} (m : Str → Option V) (k : Str) : Str → Option V :=
  fun q => if q = k then none else m q

/-- Strip `base` off the front of `p`, the lexical core of pathlib's
`relative_to` (config_cache.py, line 90): `some rel` iff `base` is a
prefix of `p`, else `none` (the `ValueError` branch). -/
def relativeTo (base p : List Str) : Option (List Str) :=
  if base <+: p then some (p.drop base.length) else none

/-- The body of `ConfigCache.notify_path_changed` after the path has
been resolved relative to the configuration root (config_cache.py,
lines 94-117): a relative path with a profile segment drops all six
per-profile cache entries for that profile; a top-level path clears the
default-scope entry whose filename matches (the three `if`s run in
source order). -/
def notify_rel_changed (st : ConfigCacheState) :
    Option (List Str) → ConfigCacheState
  | none => st
  | some rel =>
    let filename := rel.getLastD []
    if rel.length > 1 then
      let profile := rel.headD []
      { st with
        profileBlocklists := rem st.profileBlocklists profile
        profileBlocklistsMtime := rem st.profileBlocklistsMtime profile
        profileGrantlists := rem st.profileGrantlists profile
        profileGrantlistsMtime := rem st.profileGrantlistsMtime profile
        profileRegexPatterns := rem st.profileRegexPatterns profile
        profileRegexMtime := rem st.profileRegexMtime profile }
    else
      let st1 := if filename = "blocklist.txt".toList then
        { st with defaultBlocklist := none, defaultBlocklistMtime := none }
        else st
      let st2 := if filename = "grantlist.txt".toList then
        { st1 with defaultGrantlist := none, defaultGrantlistMtime := none }
        else st1
      if filename = "regex_patterns.json".toList then
        { st2 with defaultRegexPatterns := none, defaultRegexMtime := none }
      else st2

/-- `ConfigCache.notify_path_changed` (config_cache.py, lines 85-117).
The argument is the (resolved) changed path; `None` and paths outside
the configuration root (the `relative_to` `ValueError`) are ignored. -/
def notify_path_changed (st : ConfigCacheState) (path : Option (List Str)) :
    ConfigCacheState :=
  match path with
  | none => st
  | some p => notify_rel_changed st (relativeTo st.configDir p)

/-- `ConfigCache.get_profile_blocklist` (config_cache.py, lines 140-147):
mtime-checked cached read of `<root>/<profile>/blocklist.txt`, parsed to
a set.  Returns the value together with the updated cache state.  The
`_safe_mtime` call is the first statement and may propagate a stat
error. -/
def get_profile_blocklist (fs : FS) (st : ConfigCacheState) (profile : Str) :
    Except OsError (List Str × ConfigCacheState) := do
  let path := st.configDir ++ [profile, "blocklist.txt".toList]
  let mt ← safe_mtime fs path
  let cached := st.profileBlocklists profile
  if cached = none ∨ (st.profileBlocklistsMtime profile).join ≠ mt then
    let st' := { st with
      profileBlocklists :=
        upd st.profileBlocklists profile (read_list_file fs path).dedup
      profileBlocklistsMtime := upd st.profileBlocklistsMtime profile mt }
    pure ((st'.profileBlocklists profile).getD [], st')
  else
    pure ((st.profileBlocklists profile).getD [], st)

/-- `ConfigCache.get_profile_grantlist` (config_cache.py,
lines 149-156). -/
def get_profile_grantlist (fs : FS) (st : ConfigCacheState) (profile : Str) :
    Except OsError (List Str × ConfigCacheState) := do
  let path := st.configDir ++ [profile, "grantlist.txt".toList]
  let mt ← safe_mtime fs path
  let cached := st.profileGrantlists profile
  if cached = none ∨ (st.profileGrantlistsMtime profile).join ≠ mt then
    let st' := { st with
      profileGrantlists :=
        upd st.profileGrantlists profile (read_list_file fs path).dedup
      profileGrantlistsMtime := upd st.profileGrantlistsMtime profile mt }
    pure ((st'.profileGrantlists profile).getD [], st')
  else
    pure ((st.profileGrantlists profile).getD [], st)

/-- `ConfigCache.get_profile_regex_patterns` (config_cache.py,
lines 158-165). -/
def get_profile_regex_patterns (fs : FS) (st : ConfigCacheState)
    (profile : Str) :
    Except OsError (List (Str × List PatternDef) × ConfigCacheState) := do
  let path := st.configDir ++ [profile, "regex_patterns.json".toList]
  let mt ← safe_mtime fs path
  let cached := st.profileRegexPatterns profile
  if cached = none ∨ (st.profileRegexMtime profile).join ≠ mt then
    let st' := { st with
      profileRegexPatterns :=
        upd st.profileRegexPatterns profile (read_regex_patterns fs path)
      profileRegexMtime := upd st.profileRegexMtime profile mt }
    pure ((st'.profileRegexPatterns profile).getD [], st')
  else
    pure ((st.profileRegexPatterns profile).getD [], st)

/-! ## TextAnonymizer: per-profile analyzer selection (text_anonymizer.py) -/

/-- The profile-specific part of a registry built by
`TextAnonymizer._build_profile_registry` (text_anonymizer.py,
lines 180-236): the standard recognizers are common to every registry,
so a registry is characterized by the profile-specific recognizers added
on top of them — one `RegexRecognizer` per non-empty pattern group, one
blocklist `GenericWordListRecognizer` when the blocklist is non-empty and
one grantlist `GenericWordListRecognizer` when the grantlist is
non-empty (an empty collection adds no recognizer, which `[]` models). -/
structure Registry where
  regexGroups : List (Str × List PatternDef)
  blocklist : List Str
  grantlist : List Str
deriving DecidableEq

/-- An `AnalyzerEngine` as selected by `_get_analyzer_for_profile`:
either the shared default engine (`self.analyzer_engine`) or a freshly
built per-profile engine wrapping a profile registry. -/
inductive Analyzer
  | defaultEngine
  | profileEngine (registry : Registry)
deriving DecidableEq

/-- The mutable state of a `TextAnonymizer` instance that the profile
path touches: the `ConfigCache` singleton and the per-profile analyzer
cache `self._profile_analyzers_cache` (text_anonymizer.py, line 109). -/
structure AnonState where
  cache : ConfigCacheState
  profileAnalyzers : Str → Option Analyzer

/-- `TextAnonymizer._build_profile_registry` (text_anonymizer.py,
lines 180-236): re-load the three profile resources through the cache
and add a recognizer per non-empty collection.  The loading is wrapped
in a broad `except Exception` that only logs, so this function never
raises: on an exception partway through, the recognizers added before
it (and the cache state reached) are kept. -/
def build_profile_registry (fs : FS) (cache : ConfigCacheState)
    (profileName : Str) : Registry × ConfigCacheState :=
  match get_profile_regex_patterns fs cache profileName with
  | .error _ => (⟨[], [], []⟩, cache)
  | .ok (rx, c1) =>
    match get_profile_blocklist fs c1 profileName with
    | .error _ => (⟨rx.filter fun g => g.2 ≠ [], [], []⟩, c1)
    | .ok (bl, c2) =>
      match get_profile_grantlist fs c2 profileName with
      | .error _ => (⟨rx.filter fun g => g.2 ≠ [], bl, []⟩, c2)
      | .ok (gl, c3) => (⟨rx.filter fun g => g.2 ≠ [], bl, gl⟩, c3)

/-- `TextAnonymizer._get_analyzer_for_profile` (text_anonymizer.py,
lines 136-178).  `none` and the empty string take the `if not profile`
branch.  On a cache miss the three profile resources are loaded; when
all are empty the default engine is returned (and, notably, nothing is
written to the analyzer cache); otherwise a profile engine is built,
cached and returned.  The three existence-check loads (lines 157-159)
are *not* wrapped in any try/except, so a stat error from
`_safe_mtime` propagates to the caller (only the later
`_build_profile_registry` has a broad `except Exception`). -/
def get_analyzer_for_profile (fs : FS) (st : AnonState)
    (profile : Option Str) : Except OsError (Analyzer × AnonState) :=
  match profile with
  | none => .ok (.defaultEngine, st)
  | some p =>
    if p = [] then .ok (.defaultEngine, st)
    else
      match st.profileAnalyzers p with
      | some a => .ok (a, st)
      | none => do
        let r1 ← get_profile_regex_patterns fs st.cache p
        let r2 ← get_profile_blocklist fs r1.2 p
        let r3 ← get_profile_grantlist fs r2.2 p
        if r1.1 = [] ∧ r2.1 = [] ∧ r3.1 = [] then
          pure (.defaultEngine, { st with cache := r3.2 })
        else
          let rb := build_profile_registry fs r3.2 p
          let a := Analyzer.profileEngine rb.1
          pure (a,
            { cache := rb.2
              profileAnalyzers := upd st.profileAnalyzers p a })

/-- `AnonymizerResult` (models/anonymizer_result.py): anonymized text,
per-label statistics and per-label detail lists. -/
structure AnonResult where
  anonymizedText : Option Str
  statistics : List (Str × Nat)
  details : List (Str × List Str)
deriving DecidableEq

/-- The empty result built by `TextAnonymizer.anonymize` for empty
input (text_anonymizer.py, lines 253-258). -/
def emptyAnonResult : AnonResult := ⟨none, [], []⟩

/-- `TextAnonymizer.anonymize` (text_anonymizer.py, lines 238-296) at
the granularity the profile claims need.  Everything downstream of
analyzer selection — language iteration, recognizer dispatch, presidio
conflict resolution, labeling, redaction and statistics — is a
deterministic function of the selected analyzer and the request inputs;
`pipeline` stands for that function (the presidio engines are external
collaborators).  Empty input short-circuits before any dispatch.
Profile resolution never calls `validate_profile_name` and missing
files are treated as empty values, but `anonymize` has no try/except
around `_get_analyzer_for_profile`, so an uncaught stat error from
`_safe_mtime` (see there) propagates out of the request. -/
def anonymize (pipeline : Analyzer → Str → AnonResult) (fs : FS)
    (st : AnonState) (text : Str) (profile : Option Str) :
    Except OsError AnonResult :=
  if text = [] then .ok emptyAnonResult
  else do
    let r ← get_analyzer_for_profile fs st profile
    pure (pipeline r.1 text)

/-- The whole-system effect of one file-change notification
(config_watcher.py, lines 19-25): the watcher calls
`ConfigCache.notify_path_changed`; no code path removes entries from
`TextAnonymizer._profile_analyzers_cache`, so the analyzer cache is
untouched. -/
def notify_system (st : AnonState) (path : Option (List Str)) : AnonState :=
  { st with cache := notify_path_changed st.cache path }

/-! ## GenericWordListRecognizer (recognizers/fi_generic_word_list_recognizer.py) -/

/-- Python `str.split()` with no arguments: split on runs of whitespace,
producing no empty fields (helper recursion; `acc` accumulates the
current field reversed). -/
def splitWsGo : Str → Str → List Str
  | [], acc => if acc = [] then [] else [acc.reverse]
  | c :: rest, acc =>
    if isPySpace c then
      if acc = [] then splitWsGo rest []
      else acc.reverse :: splitWsGo rest []
    else splitWsGo rest (c :: acc)

/-- Python `str.split()` with no arguments. -/
def splitWs (s : Str) : List Str := splitWsGo s []

/-- Python `" ".join(...)`. -/
def joinSpace (ws : List Str) : Str := List.intercalate [' '] ws

/-- Length of a longest common subsequence of two strings, with an
explicit recursion bound so the definition is structural (each step
consumes one character from one of the strings, so
`|a| + |b|` steps always suffice). -/
def lcsFuel : Nat → Str → Str → Nat
  | 0, _, _ => 0
  | _ + 1, [], _ => 0
  | _ + 1, _ :: _, [] => 0
  | f + 1, a :: as, b :: bs =>
    if a = b then lcsFuel f as bs + 1
    else max (lcsFuel f (a :: as) bs) (lcsFuel f as (b :: bs))

/-- Length of a longest common subsequence of two strings. -/
def lcs (a b : Str) : Nat := lcsFuel (a.length + b.length) a b

/-- Modelled from the spec: the "fuzzy similarity (edit-distance-based
ratio)" used by `GenericWordListRecognizer.analyze` is
`fuzzywuzzy.fuzz.ratio`, an external dependency whose source is not part
of this repository.  Its documented value is the similarity
`2·M / (|a|+|b|)` scaled to `0..100` and rounded to an integer, where
`M` is the length of the common part — equivalently
`100·(lensum − editDistance)/lensum` with substitutions costing 2, i.e.
`200·lcs(a,b)/(|a|+|b|)`.  Two empty strings compare as fully similar.
Rounding is modelled half-up. -/
def fuzz_ratio (a b : Str) : Nat :=
  let s := a.length + b.length
  if s = 0 then 100 else (400 * lcs a b + s) / (2 * s)

/-- A token of the spaCy pipeline as consumed by the word-list
recognizer: only its text is consulted (character offsets come from the
separate `tokens_indices` array). -/
structure NlpToken where
  text : Str
deriving DecidableEq

/-- A `RecognizerResult` (span) as produced by the custom recognizers:
half-open character interval, label and score. -/
structure SpanR where
  label : Str
  start : Nat
  stop : Nat
  score : ℚ
deriving DecidableEq

/-- `GenericWordListRecognizer.minimum_word_length` before construction
(the class attribute, fi_generic_word_list_recognizer.py, line 20). -/
def GenericWordListRecognizer.default_minimum_word_length : Nat := 10

/-- The value of `self.minimum_word_length` after
`GenericWordListRecognizer.__init__` (fi_generic_word_list_recognizer.py,
lines 37-39): the loop lowers the attribute to the length of every
deny-list entry that is shorter than its current value. -/
def GenericWordListRecognizer.init_minimum_word_length
    (denyList : List Str) : Nat :=
  denyList.foldl
    (fun m w => if w.length < m then w.length else m)
    GenericWordListRecognizer.default_minimum_word_length

/-- The window text compared against a deny item
(fi_generic_word_list_recognizer.py, lines 84-85): the lower-cased
texts of the `c` tokens starting at position `i`, joined with spaces. -/
def window_text (tokens : List NlpToken) (i c : Nat) : Str :=
  joinSpace (((tokens.drop i).take c).map fun t => lowerStr t.text)

/-- The match decision of `GenericWordListRecognizer.analyze` for one
window text against one deny item (fi_generic_word_list_recognizer.py,
lines 87-101): exact case-insensitive equality, then the `startswith`
branch (both at `ratio = self.match_ratio`), then the fuzzy ratio with
the strict `ratio > self.match_ratio` threshold.  `some r` is
`match = True` with `ratio = r`. -/
def match_condition (matchRatio : Nat) (denyItem cur : Str) : Option Nat :=
  if cur = lowerStr denyItem then some matchRatio
  else if lowerStr denyItem <+: cur then some matchRatio
  else if fuzz_ratio (lowerStr denyItem) cur > matchRatio then
    some (fuzz_ratio (lowerStr denyItem) cur)
  else none

/-- One candidate-window comparison of
`GenericWordListRecognizer.analyze` (fi_generic_word_list_recognizer.py,
lines 75-124): try deny item `denyItem` at token position `i`.  Returns
`some (tokenCount, span)` on a match, `none` otherwise.  Mirrors the
source: window availability check, then `match_condition`; the span
covers `tokens_indices[first]` to `tokens_indices[last] +
len(last.text)` and is scored with the ratio. -/
def tryMatchEntry (matchRatio : Nat) (label : Str) (tokens : List NlpToken)
    (indices : List Nat) (i : Nat) (denyItem : Str) : Option (Nat × SpanR) :=
  let c := (splitWs denyItem).length
  if i + c > tokens.length then none
  else
    match match_condition matchRatio denyItem (window_text tokens i c) with
    | none => none
    | some r =>
      let lastTok := ((tokens.drop i).take c).getLastD ⟨[]⟩
      some (c, ⟨label, indices.getD i 0,
        indices.getD (i + c - 1) 0 + lastTok.text.length, (r : ℚ)⟩)

/-- The inner `for deny_item in sorted_deny_list` loop: the first deny
item (in the given order) that matches at position `i`, with its token
count and span. -/
def first_match (matchRatio : Nat) (label : Str) (tokens : List NlpToken)
    (indices : List Nat) (i : Nat) : List Str → Option (Str × Nat × SpanR)
  | [] => none
  | e :: es =>
    match tryMatchEntry matchRatio label tokens indices i e with
    | some (c, s) => some (e, c, s)
    | none => first_match matchRatio label tokens indices i es

/-- The outer `while i < len(tokens)` cursor loop of
`GenericWordListRecognizer.analyze` (fi_generic_word_list_recognizer.py,
lines 71-128): on a match emit the span and advance the cursor past the
consumed tokens, otherwise advance by one token.  `fuel` bounds the
number of loop iterations; `tokens.length` iterations always suffice
because every iteration advances the cursor (deny items are non-blank
lines, so their token count is at least 1 — on a blank deny item the
Python source would raise an `IndexError` instead of looping). -/
def analyze_loop (matchRatio : Nat) (label : Str) (tokens : List NlpToken)
    (indices : List Nat) (sortedDenyList : List Str) :
    Nat → Nat → List SpanR
  | _, 0 => []
  | i, fuel + 1 =>
    if i < tokens.length then
      match first_match matchRatio label tokens indices i sortedDenyList with
      | some (_, c, s) =>
        s :: analyze_loop matchRatio label tokens indices sortedDenyList
          (i + c) fuel
      | none =>
        analyze_loop matchRatio label tokens indices sortedDenyList
          (i + 1) fuel
    else []

/-- Stable insertion step of a descending sort by key `k`
(Python `sorted(..., key=..., reverse=True)` is a stable descending
sort). -/
def insertDescBy (k : Str → Nat) (x : Str) : List Str → List Str
  | [] => [x]
  | y :: ys => if k y ≤ k x then x :: y :: ys else y :: insertDescBy k x ys

/-- Stable descending sort by key `k`. -/
def sortDescBy (k : Str → Nat) : List Str → List Str
  | [] => []
  | x :: xs => insertDescBy k x (sortDescBy k xs)

/-- The key `len(x.split())` used to sort the deny list
(fi_generic_word_list_recognizer.py, line 68). -/
def tokenCount (e : Str) : Nat := (splitWs e).length

/-- `GenericWordListRecognizer.analyze` (fi_generic_word_list_recognizer.py,
lines 50-130): sort the deny list by token count, longest first, then
walk the token stream with the cursor loop. -/
def GenericWordListRecognizer.analyze (matchRatio : Nat)
    (denyList : List Str) (label : Str) (tokens : List NlpToken)
    (indices : List Nat) : List SpanR :=
  let sortedDenyList := sortDescBy tokenCount denyList
  analyze_loop matchRatio label tokens indices sortedDenyList 0 tokens.length

/-! ## SpacyAddressRecognizer (recognizers/fi_spacy_address_recognizer.py) -/

/-- A spaCy token as consumed by `SpacyAddressRecognizer.analyze`:
text, character offset in the document (`idx`), and the lexical / NER
attributes the guard clauses consult. -/
structure AToken where
  text : Str
  startChar : Nat
  isDigit : Bool
  isAlpha : Bool
  isStop : Bool
  likeNum : Bool
  entType : Str
deriving DecidableEq, Inhabited

/-- The token slice `doc[start:end]` of a matcher match (clamped, as
Python slicing is). -/
def spanTokens (doc : List AToken) (m : Nat × Nat) : List AToken :=
  (doc.drop m.1).take (m.2 - m.1)

/-- The `has_location_like` test (fi_spacy_address_recognizer.py,
lines 140-144): an entity-tagged LOC/GPE token, or a reasonably long
non-stopword alphabetic token. -/
def locationLike (t : AToken) : Bool :=
  t.entType == "LOC".toList || t.entType == "GPE".toList ||
    (t.isAlpha && !t.isStop && decide (6 ≤ t.text.length))

/-- The narrow "ainakin 100 kilsaa" guard (fi_spacy_address_recognizer.py,
lines 151-154): a two-token span whose first token is the LOC-tagged
word "ainakin" followed by a numeric-like token. -/
def ainakinGuard (span : List AToken) : Bool :=
  match span with
  | [t0, t1] =>
    lowerStr t0.text == "ainakin".toList && t0.entType == "LOC".toList
      && t1.likeNum
  | _ => false

/-- The guard clauses of `SpacyAddressRecognizer.analyze`
(fi_spacy_address_recognizer.py, lines 131-154): reject pure-digit
spans, spans with nothing location-like, and the "ainakin" false
positive.  A match survives when none of the three `continue`s fire. -/
def survivesGuards (doc : List AToken) (m : Nat × Nat) : Bool :=
  let span := spanTokens doc m
  !span.all AToken.isDigit && span.any locationLike && !ainakinGuard span

/-- `re.search(r"\d", s)`: position of the first digit. -/
def firstDigitIndex (s : Str) : Option Nat := s.findIdx? Char.isDigit

/-- Build the `RecognizerResult` for a surviving match
(fi_spacy_address_recognizer.py, lines 156-186): the span's character
interval with the recognizer's fixed score; when `anonymize_full_string`
is off, the start is moved to the first digit of the span text when one
exists. -/
def renderMatch (score : ℚ) (anonymizeFullString : Bool) (label : Str)
    (docText : Str) (doc : List AToken) (m : Nat × Nat) : SpanR :=
  let span := spanTokens doc m
  let spanStart := (span.headD default).startChar
  let lastTok := span.getLastD default
  let spanEnd := lastTok.startChar + lastTok.text.length
  let spanText := (docText.drop spanStart).take (spanEnd - spanStart)
  let startIndex :=
    if anonymizeFullString = false ∧ span ≠ [] ∧ spanText ≠ [] then
      match firstDigitIndex spanText with
      | some k => spanStart + k
      | none => spanStart
    else spanStart
  ⟨label, startIndex, spanEnd, score⟩

/-- The `for match_id, start, end in matches` selection loop of
`SpacyAddressRecognizer.analyze` (fi_spacy_address_recognizer.py,
lines 127-186), carrying `best_result` and `max_span_length`: a
surviving match replaces the current best exactly when its raw length
`end - start` strictly exceeds the running maximum. -/
def address_scan (score : ℚ) (anonymizeFullString : Bool) (label : Str)
    (docText : Str) (doc : List AToken) :
    List (Nat × Nat) → Option SpanR → Nat → Option SpanR
  | [], best, _ => best
  | m :: ms, best, maxLen =>
    if survivesGuards doc m ∧ m.2 - m.1 > maxLen then
      address_scan score anonymizeFullString label docText doc ms
        (some (renderMatch score anonymizeFullString label docText doc m))
        (m.2 - m.1)
    else
      address_scan score anonymizeFullString label docText doc ms best maxLen

/-- `SpacyAddressRecognizer.analyze` (fi_spacy_address_recognizer.py,
lines 110-191).  `matches` is the output of the external spaCy
`Matcher` over the token-shape patterns, in the order the matcher
returns it (matches of earlier-registered patterns precede later ones
among equally placed candidates); the doc, its text and the matches are
therefore inputs of the embedding.  Returns `best_result` as a
singleton, or the empty list when no match survives. -/
def SpacyAddressRecognizer.analyze (score : ℚ) (anonymizeFullString : Bool)
    (label : Str) (docText : Str) (doc : List AToken)
    (matchList : List (Nat × Nat)) : List SpanR :=
  match address_scan score anonymizeFullString label docText doc
      matchList none 0 with
  | some best => [best]
  | none => []

/-! ## Supporting lemmas -/

lemma mem_dropWhile_of_mem {p : Char → Bool} {c : Char} :
    ∀ {l : Str}, c ∈ l → p c = false → c ∈ l.dropWhile p := by
  intro l hm hp
  induction l with
  | nil => cases hm
  | cons a as ih =>
    by_cases ha : p a
    · rw [List.dropWhile_cons_of_pos ha]
      rcases List.mem_cons.mp hm with rfl | hm'
      · rw [hp] at ha; cases ha
      · exact ih hm'
    · rw [List.dropWhile_cons_of_neg ha]
      exact hm

lemma mem_pyStrip_of_mem {c : Char} {s : Str} (hm : c ∈ s)
    (hp : isPySpace c = false) : c ∈ pyStrip s := by
  unfold pyStrip dropTrailing
  have h1 : c ∈ s.dropWhile isPySpace := mem_dropWhile_of_mem hm hp
  have h2 : c ∈ (s.dropWhile isPySpace).reverse := List.mem_reverse.mpr h1
  exact List.mem_reverse.mpr (mem_dropWhile_of_mem h2 hp)

lemma dropWhile_eq_self_of_all {p : Char → Bool} :
    ∀ {l : Str}, (∀ c ∈ l, p c = false) → l.dropWhile p = l := by
  intro l h
  cases l with
  | nil => rfl
  | cons a as => exact List.dropWhile_cons_of_neg (by simp [h a (by simp)])

lemma pyStrip_eq_self {s : Str} (h : ∀ c ∈ s, isPySpace c = false) :
    pyStrip s = s := by
  unfold pyStrip dropTrailing
  rw [dropWhile_eq_self_of_all h, dropWhile_eq_self_of_all
    (fun c hc => h c (List.mem_reverse.mp hc)), List.reverse_reverse]

lemma isPySpace_true_cases {c : Char} (h : isPySpace c = true) :
    c = ' ' ∨ c = '\t' ∨ c = '\n' ∨ c = '\r' ∨ c = '\x0b' ∨ c = '\x0c' := by
  unfold isPySpace at h
  simp only [Bool.or_eq_true, decide_eq_true_eq] at h
  tauto

lemma isAllowedChar_not_space {c : Char} (h : isAllowedChar c = true) :
    isPySpace c = false := by
  by_contra hs
  have h6 := isPySpace_true_cases (eq_true_of_ne_false hs)
  rcases h6 with rfl | rfl | rfl | rfl | rfl | rfl <;> exact absurd h (by decide)

lemma validate_ok_inv {s t : Str} (h : validate_profile_name (some s) = .ok t) :
    t = pyStrip s ∧ t.length ≤ MAX_PROFILE_NAME_LENGTH ∧ t ≠ [] ∧
      ∀ c ∈ t, isAllowedChar c = true := by
  simp only [validate_profile_name] at h
  split at h
  · exact absurd h (by simp)
  · split at h
    · exact absurd h (by simp)
    · split at h
      · exact absurd h (by simp)
      · split at h
        · exact absurd h (by simp)
        · split at h
          · exact absurd h (by simp)
          · rename_i hempty hlen hclass hsep hdot
            simp only [Except.ok.injEq] at h
            subst h
            rw [not_not] at hclass
            exact ⟨rfl, by omega, hclass.1, hclass.2⟩

/-- **C1** (counterexample).  The claim says every string longer than 50
characters is rejected by `validate_profile_name`; but the length check
runs on the *stripped* name, so the 51-character string of 50 `'a'`s
followed by a space is accepted and validates to the 50-character
stripped name. -/
theorem c1_validate_length_counterexample :
    (List.replicate 50 'a' ++ [' ']).length > MAX_PROFILE_NAME_LENGTH ∧
    validate_profile_name (some (List.replicate 50 'a' ++ [' '])) =
      .ok (List.replicate 50 'a') := by
  exact ⟨by decide, rfl⟩

/-- **C1** (amended).  `validate_profile_name` rejects `None`, the empty
string, every string containing `..`, `/` or `\`, every string starting
with `.`, and every string whose *whitespace-stripped* form is longer
than 50 characters; and it accepts every string matching
`^[A-Za-z0-9_-]{1,50}$`, returning the (trivially trimmed) input
unchanged. -/
theorem c1_validate_profile_name_amended :
    validate_profile_name none = .error .invalidProfileName ∧
    (∀ s : Str,
      ['.', '.'] <:+: s ∨ '/' ∈ s ∨ '\\' ∈ s ∨ s.headD ' ' = '.' ∨ s = [] ∨
        MAX_PROFILE_NAME_LENGTH < (pyStrip s).length →
      validate_profile_name (some s) = .error .invalidProfileName) ∧
    (∀ s : Str, s ≠ [] → s.length ≤ MAX_PROFILE_NAME_LENGTH →
      (∀ c ∈ s, isAllowedChar c = true) →
      validate_profile_name (some s) = .ok s) := by
  refine ⟨rfl, ?_, ?_⟩
  · intro s hcase
    rcases hres : validate_profile_name (some s) with e | t
    · cases e; rfl
    · exfalso
      obtain ⟨ht, hlen, hne, hall⟩ := validate_ok_inv hres
      have hmem : ∀ c : Char, c ∈ s → isPySpace c = false →
          isAllowedChar c = true := by
        intro c hc hsp
        exact hall c (ht ▸ mem_pyStrip_of_mem hc hsp)
      rcases hcase with hin | hm | hm | hhd | rfl | hbig
      · exact absurd (hmem '.' (hin.subset (by simp)) (by decide)) (by decide)
      · exact absurd (hmem '/' hm (by decide)) (by decide)
      · exact absurd (hmem '\\' hm (by decide)) (by decide)
      · cases s with
        | nil => simp [validate_profile_name] at hres
        | cons c cs =>
          simp only [List.headD_cons] at hhd
          subst hhd
          exact absurd (hmem '.' (by simp) (by decide)) (by decide)
      · simp [validate_profile_name] at hres
      · rw [ht] at hlen; omega
  · intro s hne hlen hall
    have hstrip : pyStrip s = s :=
      pyStrip_eq_self fun c hc => isAllowedChar_not_space (hall c hc)
    have h1 : ¬ (['.', '.'] <:+: s ∨ '/' ∈ s ∨ '\\' ∈ s) := by
      rintro (hin | hm | hm)
      · exact absurd (hall '.' (hin.subset (by simp))) (by decide)
      · exact absurd (hall '/' hm) (by decide)
      · exact absurd (hall '\\' hm) (by decide)
    have h2 : ¬ s.headD ' ' = '.' := by
      cases s with
      | nil => exact absurd rfl hne
      | cons c cs =>
        simp only [List.headD_cons]
        intro hc
        subst hc
        exact absurd (hall '.' (by simp)) (by decide)
    simp only [validate_profile_name, hstrip]
    rw [if_neg hne, if_neg (by omega), if_neg (not_not_intro ⟨hne, hall⟩),
      if_neg h1, if_neg h2]

/-- Witness for `c1_validate_profile_name_amended` at concrete inputs:
a name starting with `.` is rejected, and a well-formed name is
accepted unchanged. -/
theorem c1_validate_profile_name_amended_witness :
    validate_profile_name (some ('.' :: "profile".toList)) =
      .error .invalidProfileName ∧
    validate_profile_name (some "good-profile_1".toList) =
      .ok "good-profile_1".toList :=
  ⟨c1_validate_profile_name_amended.2.1 _
      (Or.inr (Or.inr (Or.inr (Or.inl rfl)))),
    c1_validate_profile_name_amended.2.2 _ (by decide) (by decide) (by decide)⟩

/-- **C2** (confirmed).  Whenever `get_safe_profile_path` returns a path
(rather than raising `InvalidProfileNameError`), that path is the fully
resolved `base / name` and the resolved base directory's components are
a prefix of it — the path is inside the base directory.  This holds for
*every* resolution behaviour `resolveFn` (in particular for any symlink
layout), because the containment check runs on the already-resolved
path. -/
theorem c2_get_safe_profile_path_contained
    (resolveFn : List Str → List Str) (profileName : Option Str)
    (baseConfigDir : List Str) (p : List Str)
    (h : get_safe_profile_path resolveFn profileName baseConfigDir = .ok p) :
    resolveFn baseConfigDir <+: p ∧
      ∃ v, validate_profile_name profileName = .ok v ∧
        p = resolveFn (resolveFn baseConfigDir ++ [v]) := by
  unfold get_safe_profile_path at h
  rcases hv : validate_profile_name profileName with e | v
  · rw [hv] at h
    exact absurd h (by simp [Bind.bind, Except.bind])
  · rw [hv] at h
    simp only [Bind.bind, Except.bind] at h
    split at h
    · rename_i hpre
      simp only [pure, Except.pure, Except.ok.injEq] at h
      subst h
      exact ⟨hpre, v, rfl, rfl⟩
    · exact absurd h (by simp [throw, throwThe, MonadExceptOf.throw])

/-- Witness for `c2_get_safe_profile_path_contained`: with the identity
resolution and base `/cfg`, profile `abc` resolves to `/cfg/abc`, which
the theorem certifies to be under the base. -/
theorem c2_get_safe_profile_path_contained_witness :
    ["cfg".toList] <+: ["cfg".toList, "abc".toList] ∧
      ∃ v, validate_profile_name (some "abc".toList) = .ok v ∧
        ["cfg".toList, "abc".toList] = id (id ["cfg".toList] ++ [v]) :=
  c2_get_safe_profile_path_contained id (some "abc".toList) ["cfg".toList]
    ["cfg".toList, "abc".toList] rfl

/-! ### Cache getter lemmas for unconfigured profiles -/

lemma get_profile_regex_patterns_absent {fs : FS} {st : ConfigCacheState}
    {p : Str}
    (hf : fs (st.configDir ++ [p, "regex_patterns.json".toList]) = .missing)
    (hc : st.profileRegexPatterns p = none) :
    ∃ st', get_profile_regex_patterns fs st p = .ok ([], st') ∧
      st'.configDir = st.configDir ∧
      st'.profileBlocklists = st.profileBlocklists ∧
      st'.profileGrantlists = st.profileGrantlists ∧
      st'.profileRegexPatterns p = some [] ∧
      (st'.profileRegexMtime p).join = none := by
  have hmt : safe_mtime fs (st.configDir ++ [p, "regex_patterns.json".toList])
      = .ok none := by unfold safe_mtime; rw [hf]
  have hrd : read_regex_patterns fs
      (st.configDir ++ [p, "regex_patterns.json".toList]) = [] := by
    unfold read_regex_patterns; rw [hf]
  simp only [get_profile_regex_patterns, hmt, hrd, Bind.bind, Except.bind]
  rw [if_pos (Or.inl hc)]
  refine ⟨{ st with
      profileRegexPatterns := upd st.profileRegexPatterns p [],
      profileRegexMtime := upd st.profileRegexMtime p none }, ?_, rfl, rfl,
    rfl, by simp [upd], by simp [upd]⟩
  simp [pure, Except.pure, upd]

lemma get_profile_blocklist_absent {fs : FS} {st : ConfigCacheState} {p : Str}
    (hf : fs (st.configDir ++ [p, "blocklist.txt".toList]) = .missing)
    (hc : st.profileBlocklists p = none) :
    ∃ st', get_profile_blocklist fs st p = .ok ([], st') ∧
      st'.configDir = st.configDir ∧
      st'.profileGrantlists = st.profileGrantlists ∧
      st'.profileRegexPatterns = st.profileRegexPatterns ∧
      st'.profileRegexMtime = st.profileRegexMtime ∧
      st'.profileBlocklists p = some [] ∧
      (st'.profileBlocklistsMtime p).join = none := by
  have hmt : safe_mtime fs (st.configDir ++ [p, "blocklist.txt".toList])
      = .ok none := by unfold safe_mtime; rw [hf]
  have hrd : read_list_file fs (st.configDir ++ [p, "blocklist.txt".toList])
      = [] := by unfold read_list_file; rw [hf]
  simp only [get_profile_blocklist, hmt, hrd, Bind.bind, Except.bind]
  rw [if_pos (Or.inl hc)]
  refine ⟨{ st with
      profileBlocklists := upd st.profileBlocklists p [].dedup,
      profileBlocklistsMtime := upd st.profileBlocklistsMtime p none }, ?_,
    rfl, rfl, rfl, rfl, by simp [upd], by simp [upd]⟩
  simp [pure, Except.pure, upd]

lemma get_profile_grantlist_absent {fs : FS} {st : ConfigCacheState} {p : Str}
    (hf : fs (st.configDir ++ [p, "grantlist.txt".toList]) = .missing)
    (hc : st.profileGrantlists p = none) :
    ∃ st', get_profile_grantlist fs st p = .ok ([], st') ∧
      st'.configDir = st.configDir ∧
      st'.profileRegexPatterns = st.profileRegexPatterns ∧
      st'.profileRegexMtime = st.profileRegexMtime ∧
      st'.profileBlocklists = st.profileBlocklists ∧
      st'.profileBlocklistsMtime = st.profileBlocklistsMtime ∧
      st'.profileGrantlists p = some [] ∧
      (st'.profileGrantlistsMtime p).join = none := by
  have hmt : safe_mtime fs (st.configDir ++ [p, "grantlist.txt".toList])
      = .ok none := by unfold safe_mtime; rw [hf]
  have hrd : read_list_file fs (st.configDir ++ [p, "grantlist.txt".toList])
      = [] := by unfold read_list_file; rw [hf]
  simp only [get_profile_grantlist, hmt, hrd, Bind.bind, Except.bind]
  rw [if_pos (Or.inl hc)]
  refine ⟨{ st with
      profileGrantlists := upd st.profileGrantlists p [].dedup,
      profileGrantlistsMtime := upd st.profileGrantlistsMtime p none }, ?_,
    rfl, rfl, rfl, rfl, rfl, by simp [upd], by simp [upd]⟩
  simp [pure, Except.pure, upd]

lemma get_profile_regex_patterns_cached_empty {fs : FS}
    {st : ConfigCacheState} {p : Str}
    (hf : fs (st.configDir ++ [p, "regex_patterns.json".toList]) = .missing)
    (hc : st.profileRegexPatterns p = some [])
    (hm : (st.profileRegexMtime p).join = none) :
    get_profile_regex_patterns fs st p = .ok ([], st) := by
  have hmt : safe_mtime fs (st.configDir ++ [p, "regex_patterns.json".toList])
      = .ok none := by unfold safe_mtime; rw [hf]
  simp only [get_profile_regex_patterns, hmt, Bind.bind, Except.bind]
  rw [if_neg (by rw [hc, hm]; simp)]
  simp [pure, Except.pure, hc]

lemma get_profile_blocklist_cached_empty {fs : FS} {st : ConfigCacheState}
    {p : Str}
    (hf : fs (st.configDir ++ [p, "blocklist.txt".toList]) = .missing)
    (hc : st.profileBlocklists p = some [])
    (hm : (st.profileBlocklistsMtime p).join = none) :
    get_profile_blocklist fs st p = .ok ([], st) := by
  have hmt : safe_mtime fs (st.configDir ++ [p, "blocklist.txt".toList])
      = .ok none := by unfold safe_mtime; rw [hf]
  simp only [get_profile_blocklist, hmt, Bind.bind, Except.bind]
  rw [if_neg (by rw [hc, hm]; simp)]
  simp [pure, Except.pure, hc]

lemma get_profile_grantlist_cached_empty {fs : FS} {st : ConfigCacheState}
    {p : Str}
    (hf : fs (st.configDir ++ [p, "grantlist.txt".toList]) = .missing)
    (hc : st.profileGrantlists p = some [])
    (hm : (st.profileGrantlistsMtime p).join = none) :
    get_profile_grantlist fs st p = .ok ([], st) := by
  have hmt : safe_mtime fs (st.configDir ++ [p, "grantlist.txt".toList])
      = .ok none := by unfold safe_mtime; rw [hf]
  simp only [get_profile_grantlist, hmt, Bind.bind, Except.bind]
  rw [if_neg (by rw [hc, hm]; simp)]
  simp [pure, Except.pure, hc]

/-- Core of C3/C4: on a registry-cache miss for a profile whose three
configuration files are well-formed but absent (stat raises
`FileNotFoundError`, which `_safe_mtime` catches) and whose resources
were never loaded, `_get_analyzer_for_profile` returns the default
engine and leaves the per-profile analyzer cache untouched (while the
config cache records the three empty loads). -/
lemma get_analyzer_unconfigured {fs : FS} {st : AnonState} {p : Str}
    (hp : p ≠ [])
    (hmiss : st.profileAnalyzers p = none)
    (hr : fs (st.cache.configDir ++ [p, "regex_patterns.json".toList])
      = .missing)
    (hb : fs (st.cache.configDir ++ [p, "blocklist.txt".toList]) = .missing)
    (hg : fs (st.cache.configDir ++ [p, "grantlist.txt".toList]) = .missing)
    (hcr : st.cache.profileRegexPatterns p = none)
    (hcb : st.cache.profileBlocklists p = none)
    (hcg : st.cache.profileGrantlists p = none) :
    ∃ st', get_analyzer_for_profile fs st (some p)
        = .ok (.defaultEngine, st') ∧
      st'.profileAnalyzers = st.profileAnalyzers ∧
      st'.cache.configDir = st.cache.configDir ∧
      st'.cache.profileRegexPatterns p = some [] ∧
      (st'.cache.profileRegexMtime p).join = none ∧
      st'.cache.profileBlocklists p = some [] ∧
      (st'.cache.profileBlocklistsMtime p).join = none ∧
      st'.cache.profileGrantlists p = some [] ∧
      (st'.cache.profileGrantlistsMtime p).join = none := by
  obtain ⟨c1, e1, c1cd, c1bl, c1gl, c1rx, c1rxm⟩ :=
    get_profile_regex_patterns_absent hr hcr
  obtain ⟨c2, e2, c2cd, c2gl, c2rx, c2rxm, c2bl, c2blm⟩ :=
    @get_profile_blocklist_absent fs c1 p
      (by rw [c1cd]; exact hb) (by rw [c1bl]; exact hcb)
  obtain ⟨c3, e3, c3cd, c3rx, c3rxm, c3bl, c3blm, c3gl, c3glm⟩ :=
    @get_profile_grantlist_absent fs c2 p
      (by rw [c2cd, c1cd]; exact hg) (by rw [c2gl, c1gl]; exact hcg)
  refine ⟨{ st with cache := c3 }, ?_, rfl, ?_, ?_, ?_, ?_, ?_, ?_, ?_⟩
  · simp only [get_analyzer_for_profile, hmiss, if_neg hp, e1, e2, e3,
      Bind.bind, Except.bind]
    rw [if_pos ⟨trivial, trivial, trivial⟩]
    rfl
  · rw [show ({ st with cache := c3 } : AnonState).cache = c3 from rfl,
      c3cd, c2cd, c1cd]
  · rw [show ({ st with cache := c3 } : AnonState).cache = c3 from rfl,
      c3rx, c2rx]
    exact c1rx
  · rw [show ({ st with cache := c3 } : AnonState).cache = c3 from rfl,
      c3rxm, c2rxm]
    exact c1rxm
  · rw [show ({ st with cache := c3 } : AnonState).cache = c3 from rfl, c3bl]
    exact c2bl
  · rw [show ({ st with cache := c3 } : AnonState).cache = c3 from rfl, c3blm]
    exact c2blm
  · exact c3gl
  · exact c3glm

/-- Core of C3/C4, second call: once the three empty loads are recorded
in the config cache, a further `_get_analyzer_for_profile` call for the
still-unconfigured profile again re-checks the configuration (served
from the config cache), returns the default engine and changes
nothing. -/
lemma get_analyzer_unconfigured_cached {fs : FS} {st : AnonState} {p : Str}
    (hmiss : st.profileAnalyzers p = none)
    (hr : fs (st.cache.configDir ++ [p, "regex_patterns.json".toList])
      = .missing)
    (hb : fs (st.cache.configDir ++ [p, "blocklist.txt".toList]) = .missing)
    (hg : fs (st.cache.configDir ++ [p, "grantlist.txt".toList]) = .missing)
    (hcr : st.cache.profileRegexPatterns p = some [])
    (hmr : (st.cache.profileRegexMtime p).join = none)
    (hcb : st.cache.profileBlocklists p = some [])
    (hmb : (st.cache.profileBlocklistsMtime p).join = none)
    (hcg : st.cache.profileGrantlists p = some [])
    (hmg : (st.cache.profileGrantlistsMtime p).join = none) :
    get_analyzer_for_profile fs st (some p) = .ok (.defaultEngine, st) := by
  by_cases hp : p = []
  · subst hp; simp [get_analyzer_for_profile]
  · have e1 := get_profile_regex_patterns_cached_empty hr hcr hmr
    have e2 := get_profile_blocklist_cached_empty hb hcb hmb
    have e3 := get_profile_grantlist_cached_empty hg hcg hmg
    simp only [get_analyzer_for_profile, hmiss, if_neg hp, e1, e2, e3,
      Bind.bind, Except.bind]
    rw [if_pos ⟨trivial, trivial, trivial⟩]
    rfl

/-- **C3** (counterexample).  The claim says the request is never
rejected with an error, even when the profile name is broken.  But
`_safe_mtime` catches only `FileNotFoundError`: stat of a path with an
embedded NUL byte raises `ValueError` (and an over-long component
raises `OSError ENAMETOOLONG`), which propagates through
`get_profile_regex_patterns` and `_get_analyzer_for_profile` out of
`anonymize`.  With the broken profile name `a\x00b` — which has no
configuration on disk — the request is rejected with the error, while
the same request with `profile=None` succeeds; in particular the two
results are not identical either. -/
theorem c3_broken_profile_rejected_counterexample :
    anonymize (fun _ t => ⟨some t, [], []⟩)
        (fun path => if ['a', '\x00', 'b'] ∈ path then .statError
          else .missing)
        ⟨ConfigCacheState.init ["cfg".toList], fun _ => none⟩
        "hi".toList (some ['a', '\x00', 'b'])
      = .error .osError ∧
    anonymize (fun _ t => ⟨some t, [], []⟩)
        (fun path => if ['a', '\x00', 'b'] ∈ path then .statError
          else .missing)
        ⟨ConfigCacheState.init ["cfg".toList], fun _ => none⟩
        "hi".toList none
      = .ok ⟨some "hi".toList, [], []⟩ :=
  ⟨rfl, rfl⟩

/-- **C3** (amended).  For every pipeline, text and profile name `p`
with no profile-scoped configuration on disk: when the three
configuration paths merely do not exist (stat raises
`FileNotFoundError`, the one error `_safe_mtime` catches) and no
analyzer was previously built for `p`, `anonymize(text, profile=p)`
selects the same default engine as `anonymize(text, profile=None)` and
returns the identical result — a *nonexistent* profile is never
rejected; but when stat of `p`'s configuration path fails with any
other error (`ValueError` for an embedded NUL byte, `OSError
ENAMETOOLONG` for an over-long name), the exception propagates out of
`anonymize` and the request *is* rejected. -/
theorem c3_unconfigured_profile_defaults_amended
    (pipeline : Analyzer → Str → AnonResult) (fs : FS) (st : AnonState)
    (text : Str) (p : Str)
    (hmiss : st.profileAnalyzers p = none) :
    ((fs (st.cache.configDir ++ [p, "regex_patterns.json".toList])
        = .missing) →
     (fs (st.cache.configDir ++ [p, "blocklist.txt".toList]) = .missing) →
     (fs (st.cache.configDir ++ [p, "grantlist.txt".toList]) = .missing) →
     st.cache.profileRegexPatterns p = none →
     st.cache.profileBlocklists p = none →
     st.cache.profileGrantlists p = none →
     anonymize pipeline fs st text (some p)
       = anonymize pipeline fs st text none) ∧
    (text ≠ [] → p ≠ [] →
     fs (st.cache.configDir ++ [p, "regex_patterns.json".toList])
       = .statError →
     anonymize pipeline fs st text (some p) = .error .osError) := by
  constructor
  · intro hr hb hg hcr hcb hcg
    by_cases htext : text = []
    · unfold anonymize
      rw [if_pos htext, if_pos htext]
    · by_cases hp : p = []
      · subst hp; rfl
      · obtain ⟨st', e, _⟩ :=
          get_analyzer_unconfigured hp hmiss hr hb hg hcr hcb hcg
        unfold anonymize
        rw [if_neg htext, if_neg htext, e]
        rfl
  · intro htext hp hrx
    have hmt : safe_mtime fs
        (st.cache.configDir ++ [p, "regex_patterns.json".toList])
        = .error .osError := by
      unfold safe_mtime; rw [hrx]
    have e1 : get_profile_regex_patterns fs st.cache p
        = .error .osError := by
      simp only [get_profile_regex_patterns, hmt, Bind.bind, Except.bind]
    have e0 : get_analyzer_for_profile fs st (some p)
        = .error .osError := by
      simp only [get_analyzer_for_profile, hmiss, if_neg hp, e1,
        Bind.bind, Except.bind]
    unfold anonymize
    rw [if_neg htext, e0]
    rfl

/-- Witness for `c3_unconfigured_profile_defaults_amended`: the
never-configured hostile-but-stattable name `../evil` anonymizes
identically to the default profile, while a name whose path stat fails
with an uncaught error gets the request rejected. -/
theorem c3_unconfigured_profile_defaults_amended_witness :
    (anonymize (fun _ t => ⟨some t, [], []⟩) (fun _ => .missing)
        ⟨ConfigCacheState.init ["cfg".toList], fun _ => none⟩
        "hi".toList (some "../evil".toList)
      = anonymize (fun _ t => ⟨some t, [], []⟩) (fun _ => .missing)
        ⟨ConfigCacheState.init ["cfg".toList], fun _ => none⟩
        "hi".toList none) ∧
    anonymize (fun _ t => ⟨some t, [], []⟩) (fun _ => .statError)
        ⟨ConfigCacheState.init ["cfg".toList], fun _ => none⟩
        "hi".toList (some "broken".toList)
      = .error .osError :=
  ⟨(c3_unconfigured_profile_defaults_amended _ _ _ _ _ rfl).1
      rfl rfl rfl rfl rfl rfl,
    (c3_unconfigured_profile_defaults_amended _ _ _ _ _ rfl).2
      (by decide) (by decide) rfl⟩

/-- **C4** (counterexample).  The claim says that after a cache miss
with no profile-scoped configuration the default Registry is cached
under the profile's key.  It is not: on a fresh anonymizer over an
empty filesystem, resolving profile `p` returns the default engine yet
leaves the per-profile analyzer cache without an entry for `p`. -/
theorem c4_default_not_cached_counterexample :
    (get_analyzer_for_profile (fun _ => .missing)
        ⟨ConfigCacheState.init ["cfg".toList], fun _ => none⟩
        (some "p".toList)).toOption.map
        (fun r => (r.1, r.2.profileAnalyzers "p".toList))
      = some (.defaultEngine, none) :=
  rfl

/-- **C4** (amended).  When a profile lookup misses the per-profile
registry cache and no profile-scoped configuration exists, the default
engine is returned but **not** cached under the profile's key; a
repeated call with the same profile name therefore misses the registry
cache again and re-runs the configuration-existence check (now served
by the config cache's recorded empty loads), returning the default
engine and leaving the state unchanged. -/
theorem c4_unconfigured_miss_not_cached (fs : FS) (st : AnonState) (p : Str)
    (hp : p ≠ [])
    (hmiss : st.profileAnalyzers p = none)
    (hr : fs (st.cache.configDir ++ [p, "regex_patterns.json".toList])
      = .missing)
    (hb : fs (st.cache.configDir ++ [p, "blocklist.txt".toList]) = .missing)
    (hg : fs (st.cache.configDir ++ [p, "grantlist.txt".toList]) = .missing)
    (hcr : st.cache.profileRegexPatterns p = none)
    (hcb : st.cache.profileBlocklists p = none)
    (hcg : st.cache.profileGrantlists p = none) :
    ∃ st', get_analyzer_for_profile fs st (some p)
        = .ok (.defaultEngine, st') ∧
      st'.profileAnalyzers p = none ∧
      get_analyzer_for_profile fs st' (some p)
        = .ok (.defaultEngine, st') := by
  obtain ⟨st', e, hpa, hcd, hrx, hrxm, hbl, hblm, hgl, hglm⟩ :=
    get_analyzer_unconfigured hp hmiss hr hb hg hcr hcb hcg
  refine ⟨st', e, by rw [hpa]; exact hmiss, ?_⟩
  exact get_analyzer_unconfigured_cached (by rw [hpa]; exact hmiss)
    (by rw [hcd]; exact hr) (by rw [hcd]; exact hb) (by rw [hcd]; exact hg)
    hrx hrxm hbl hblm hgl hglm

/-- Witness for `c4_unconfigured_miss_not_cached` on a fresh anonymizer
over an empty filesystem with profile `p`. -/
theorem c4_unconfigured_miss_not_cached_witness :
    ∃ st', get_analyzer_for_profile (fun _ => .missing)
        ⟨ConfigCacheState.init ["cfg".toList], fun _ => none⟩
        (some "p".toList) = .ok (.defaultEngine, st') ∧
      st'.profileAnalyzers "p".toList = none ∧
      get_analyzer_for_profile (fun _ => .missing) st' (some "p".toList)
        = .ok (.defaultEngine, st') :=
  c4_unconfigured_miss_not_cached _ _ _ (by decide) rfl rfl rfl rfl rfl
    rfl rfl
/-- **C10** (counterexample).  The claim says a change notification for
a path with a profile segment invalidates that profile's three cached
resources *and the corresponding built Registry*.  The resource caches
are cleared, but no code path removes the profile's entry from
`_profile_analyzers_cache`: after notifying `cfg/p/blocklist.txt`, the
analyzer built for `p` is still cached. -/
theorem c10_registry_not_invalidated_counterexample :
    (notify_system
        ⟨{ ConfigCacheState.init ["cfg".toList] with
            profileBlocklists :=
              fun q => if q = "p".toList then some ["x".toList] else none },
          fun q => if q = "p".toList
            then some (.profileEngine ⟨[], ["x".toList], []⟩) else none⟩
        (some ["cfg".toList, "p".toList, "blocklist.txt".toList])
      ).cache.profileBlocklists "p".toList = none ∧
    (notify_system
        ⟨{ ConfigCacheState.init ["cfg".toList] with
            profileBlocklists :=
              fun q => if q = "p".toList then some ["x".toList] else none },
          fun q => if q = "p".toList
            then some (.profileEngine ⟨[], ["x".toList], []⟩) else none⟩
        (some ["cfg".toList, "p".toList, "blocklist.txt".toList])
      ).profileAnalyzers "p".toList
      = some (.profileEngine ⟨[], ["x".toList], []⟩) :=
  ⟨rfl, rfl⟩

/-- **C10** (amended).  For every changed path under the configuration
root: the per-profile analyzer cache (the built registries) is never
touched by `notify_path_changed`; if the relative path has a profile
segment, the three cached resources (and their mtimes) of that profile
are invalidated while every default-scope entry and every other
profile's entries are unchanged; if it has no profile segment, only the
default-scope entry whose filename matches is invalidated, and all
profile-scoped entries are unchanged. -/
theorem c10_notify_path_changed_amended (st : AnonState)
    (path rel : List Str)
    (hrel : relativeTo st.cache.configDir path = some rel) :
    (notify_system st (some path)).profileAnalyzers = st.profileAnalyzers ∧
    (1 < rel.length →
      (notify_system st (some path)).cache.profileBlocklists (rel.headD [])
          = none ∧
      (notify_system st (some path)).cache.profileBlocklistsMtime
          (rel.headD []) = none ∧
      (notify_system st (some path)).cache.profileGrantlists (rel.headD [])
          = none ∧
      (notify_system st (some path)).cache.profileGrantlistsMtime
          (rel.headD []) = none ∧
      (notify_system st (some path)).cache.profileRegexPatterns (rel.headD [])
          = none ∧
      (notify_system st (some path)).cache.profileRegexMtime (rel.headD [])
          = none ∧
      (∀ q, q ≠ rel.headD [] →
        (notify_system st (some path)).cache.profileBlocklists q
            = st.cache.profileBlocklists q ∧
        (notify_system st (some path)).cache.profileBlocklistsMtime q
            = st.cache.profileBlocklistsMtime q ∧
        (notify_system st (some path)).cache.profileGrantlists q
            = st.cache.profileGrantlists q ∧
        (notify_system st (some path)).cache.profileGrantlistsMtime q
            = st.cache.profileGrantlistsMtime q ∧
        (notify_system st (some path)).cache.profileRegexPatterns q
            = st.cache.profileRegexPatterns q ∧
        (notify_system st (some path)).cache.profileRegexMtime q
            = st.cache.profileRegexMtime q) ∧
      (notify_system st (some path)).cache.defaultBlocklist
          = st.cache.defaultBlocklist ∧
      (notify_system st (some path)).cache.defaultBlocklistMtime
          = st.cache.defaultBlocklistMtime ∧
      (notify_system st (some path)).cache.defaultGrantlist
          = st.cache.defaultGrantlist ∧
      (notify_system st (some path)).cache.defaultGrantlistMtime
          = st.cache.defaultGrantlistMtime ∧
      (notify_system st (some path)).cache.defaultRegexPatterns
          = st.cache.defaultRegexPatterns ∧
      (notify_system st (some path)).cache.defaultRegexMtime
          = st.cache.defaultRegexMtime) ∧
    (¬ 1 < rel.length →
      (notify_system st (some path)).cache.profileBlocklists
          = st.cache.profileBlocklists ∧
      (notify_system st (some path)).cache.profileBlocklistsMtime
          = st.cache.profileBlocklistsMtime ∧
      (notify_system st (some path)).cache.profileGrantlists
          = st.cache.profileGrantlists ∧
      (notify_system st (some path)).cache.profileGrantlistsMtime
          = st.cache.profileGrantlistsMtime ∧
      (notify_system st (some path)).cache.profileRegexPatterns
          = st.cache.profileRegexPatterns ∧
      (notify_system st (some path)).cache.profileRegexMtime
          = st.cache.profileRegexMtime ∧
      (rel.getLastD [] = "blocklist.txt".toList →
        (notify_system st (some path)).cache.defaultBlocklist = none ∧
        (notify_system st (some path)).cache.defaultBlocklistMtime = none) ∧
      (rel.getLastD [] ≠ "blocklist.txt".toList →
        (notify_system st (some path)).cache.defaultBlocklist
            = st.cache.defaultBlocklist ∧
        (notify_system st (some path)).cache.defaultBlocklistMtime
            = st.cache.defaultBlocklistMtime) ∧
      (rel.getLastD [] = "grantlist.txt".toList →
        (notify_system st (some path)).cache.defaultGrantlist = none ∧
        (notify_system st (some path)).cache.defaultGrantlistMtime = none) ∧
      (rel.getLastD [] ≠ "grantlist.txt".toList →
        (notify_system st (some path)).cache.defaultGrantlist
            = st.cache.defaultGrantlist ∧
        (notify_system st (some path)).cache.defaultGrantlistMtime
            = st.cache.defaultGrantlistMtime) ∧
      (rel.getLastD [] = "regex_patterns.json".toList →
        (notify_system st (some path)).cache.defaultRegexPatterns = none ∧
        (notify_system st (some path)).cache.defaultRegexMtime = none) ∧
      (rel.getLastD [] ≠ "regex_patterns.json".toList →
        (notify_system st (some path)).cache.defaultRegexPatterns
            = st.cache.defaultRegexPatterns ∧
        (notify_system st (some path)).cache.defaultRegexMtime
            = st.cache.defaultRegexMtime)) := by
  refine ⟨rfl, ?_, ?_⟩
  · intro hlen
    have hnot : (notify_system st (some path)).cache
        = { st.cache with
            profileBlocklists := rem st.cache.profileBlocklists (rel.headD [])
            profileBlocklistsMtime :=
              rem st.cache.profileBlocklistsMtime (rel.headD [])
            profileGrantlists := rem st.cache.profileGrantlists (rel.headD [])
            profileGrantlistsMtime :=
              rem st.cache.profileGrantlistsMtime (rel.headD [])
            profileRegexPatterns :=
              rem st.cache.profileRegexPatterns (rel.headD [])
            profileRegexMtime :=
              rem st.cache.profileRegexMtime (rel.headD []) } := by
      show notify_rel_changed st.cache (relativeTo st.cache.configDir path) = _
      rw [hrel]
      simp only [notify_rel_changed]
      rw [if_pos hlen]
    rw [hnot]
    refine ⟨by simp [rem], by simp [rem], by simp [rem], by simp [rem],
      by simp [rem], by simp [rem], ?_, rfl, rfl, rfl, rfl, rfl, rfl⟩
    intro q hq
    exact ⟨by simp only [rem, if_neg hq], by simp only [rem, if_neg hq],
      by simp only [rem, if_neg hq], by simp only [rem, if_neg hq],
      by simp only [rem, if_neg hq], by simp only [rem, if_neg hq]⟩
  · intro hlen
    have hnot : (notify_system st (some path)).cache
        = (let st1 := if rel.getLastD [] = "blocklist.txt".toList then
            { st.cache with
                defaultBlocklist := none,
                defaultBlocklistMtime := none }
            else st.cache
           let st2 := if rel.getLastD [] = "grantlist.txt".toList then
            { st1 with
                defaultGrantlist := none,
                defaultGrantlistMtime := none }
            else st1
           if rel.getLastD [] = "regex_patterns.json".toList then
            { st2 with
                defaultRegexPatterns := none,
                defaultRegexMtime := none }
           else st2) := by
      show notify_rel_changed st.cache (relativeTo st.cache.configDir path) = _
      rw [hrel]
      simp only [notify_rel_changed]
      rw [if_neg hlen]
    by_cases h1 : rel.getLastD [] = "blocklist.txt".toList <;>
      by_cases h2 : rel.getLastD [] = "grantlist.txt".toList <;>
      by_cases h3 : rel.getLastD [] = "regex_patterns.json".toList
    · exact absurd (h1.symm.trans h2) (by decide)
    · exact absurd (h1.symm.trans h2) (by decide)
    · exact absurd (h1.symm.trans h3) (by decide)
    · have hfin : (notify_system st (some path)).cache
          = { st.cache with
              defaultBlocklist := none, defaultBlocklistMtime := none } := by
        rw [hnot]; simp only [if_pos h1, if_neg h2, if_neg h3]
      exact ⟨by rw [hfin], by rw [hfin], by rw [hfin], by rw [hfin],
        by rw [hfin], by rw [hfin],
        fun _ => ⟨by rw [hfin], by rw [hfin]⟩,
        fun hx => absurd h1 hx,
        fun hx => absurd hx h2,
        fun _ => ⟨by rw [hfin], by rw [hfin]⟩,
        fun hx => absurd hx h3,
        fun _ => ⟨by rw [hfin], by rw [hfin]⟩⟩
    · exact absurd (h2.symm.trans h3) (by decide)
    · have hfin : (notify_system st (some path)).cache
          = { st.cache with
              defaultGrantlist := none, defaultGrantlistMtime := none } := by
        rw [hnot]; simp only [if_neg h1, if_pos h2, if_neg h3]
      exact ⟨by rw [hfin], by rw [hfin], by rw [hfin], by rw [hfin],
        by rw [hfin], by rw [hfin],
        fun hx => absurd hx h1,
        fun _ => ⟨by rw [hfin], by rw [hfin]⟩,
        fun _ => ⟨by rw [hfin], by rw [hfin]⟩,
        fun hx => absurd h2 hx,
        fun hx => absurd hx h3,
        fun _ => ⟨by rw [hfin], by rw [hfin]⟩⟩
    · have hfin : (notify_system st (some path)).cache
          = { st.cache with
              defaultRegexPatterns := none, defaultRegexMtime := none } := by
        rw [hnot]; simp only [if_neg h1, if_neg h2, if_pos h3]
      exact ⟨by rw [hfin], by rw [hfin], by rw [hfin], by rw [hfin],
        by rw [hfin], by rw [hfin],
        fun hx => absurd hx h1,
        fun _ => ⟨by rw [hfin], by rw [hfin]⟩,
        fun hx => absurd hx h2,
        fun _ => ⟨by rw [hfin], by rw [hfin]⟩,
        fun _ => ⟨by rw [hfin], by rw [hfin]⟩,
        fun hx => absurd h3 hx⟩
    · have hfin : (notify_system st (some path)).cache = st.cache := by
        rw [hnot]; simp only [if_neg h1, if_neg h2, if_neg h3]
      exact ⟨by rw [hfin], by rw [hfin], by rw [hfin], by rw [hfin],
        by rw [hfin], by rw [hfin],
        fun hx => absurd hx h1,
        fun _ => ⟨by rw [hfin], by rw [hfin]⟩,
        fun hx => absurd hx h2,
        fun _ => ⟨by rw [hfin], by rw [hfin]⟩,
        fun hx => absurd hx h3,
        fun _ => ⟨by rw [hfin], by rw [hfin]⟩⟩

/-- Witness for `c10_notify_path_changed_amended`: notifying
`cfg/p/blocklist.txt` on a state that has cached resources for `p` and
`q` clears `p`'s blocklist entry and leaves `q`'s untouched. -/
theorem c10_notify_path_changed_amended_witness :
    (notify_system
        ⟨{ ConfigCacheState.init ["cfg".toList] with
            profileBlocklists := fun q =>
              if q = "p".toList then some ["x".toList]
              else if q = "q".toList then some ["y".toList] else none },
          fun _ => none⟩
        (some ["cfg".toList, "p".toList, "blocklist.txt".toList])
      ).cache.profileBlocklists "p".toList = none ∧
    (notify_system
        ⟨{ ConfigCacheState.init ["cfg".toList] with
            profileBlocklists := fun q =>
              if q = "p".toList then some ["x".toList]
              else if q = "q".toList then some ["y".toList] else none },
          fun _ => none⟩
        (some ["cfg".toList, "p".toList, "blocklist.txt".toList])
      ).cache.profileBlocklists "q".toList = some ["y".toList] := by
  refine ⟨((c10_notify_path_changed_amended
      ⟨{ ConfigCacheState.init ["cfg".toList] with
          profileBlocklists := fun q =>
            if q = "p".toList then some ["x".toList]
            else if q = "q".toList then some ["y".toList] else none },
        fun _ => none⟩
      ["cfg".toList, "p".toList, "blocklist.txt".toList]
      ["p".toList, "blocklist.txt".toList] (by decide)).2.1 (by decide)).1, ?_⟩
  have h := (((c10_notify_path_changed_amended
      ⟨{ ConfigCacheState.init ["cfg".toList] with
          profileBlocklists := fun q =>
            if q = "p".toList then some ["x".toList]
            else if q = "q".toList then some ["y".toList] else none },
        fun _ => none⟩
      ["cfg".toList, "p".toList, "blocklist.txt".toList]
      ["p".toList, "blocklist.txt".toList] (by decide)).2.1
      (by decide)).2.2.2.2.2.2.1 "q".toList (by decide)).1
  rw [h]
  rfl

/-! ### Word-list recognizer lemmas -/

lemma lcsFuel_le_left : ∀ (f : Nat) (a b : Str), lcsFuel f a b ≤ a.length := by
  intro f
  induction f with
  | zero => intro a b; simp [lcsFuel]
  | succ n ih =>
    intro a b
    match a, b with
    | [], _ => simp [lcsFuel]
    | _ :: _, [] => simp [lcsFuel]
    | x :: xs, y :: ys =>
      rw [lcsFuel]
      split
      · exact Nat.succ_le_succ (ih xs ys)
      · have h1 := ih (x :: xs) ys
        have h2 := ih xs (y :: ys)
        simp only [List.length_cons] at *
        omega

lemma lcsFuel_le_right : ∀ (f : Nat) (a b : Str), lcsFuel f a b ≤ b.length := by
  intro f
  induction f with
  | zero => intro a b; simp [lcsFuel]
  | succ n ih =>
    intro a b
    match a, b with
    | [], _ => simp [lcsFuel]
    | _ :: _, [] => simp [lcsFuel]
    | x :: xs, y :: ys =>
      rw [lcsFuel]
      split
      · exact Nat.succ_le_succ (ih xs ys)
      · have h1 := ih (x :: xs) ys
        have h2 := ih xs (y :: ys)
        simp only [List.length_cons] at *
        omega

lemma lcs_le_left (a b : Str) : lcs a b ≤ a.length := lcsFuel_le_left _ a b

lemma lcs_le_right (a b : Str) : lcs a b ≤ b.length := lcsFuel_le_right _ a b

lemma fuzz_ratio_le_100 (a b : Str) : fuzz_ratio a b ≤ 100 := by
  simp only [fuzz_ratio]
  split
  · exact le_refl 100
  · rename_i hs
    have h1 := lcs_le_left a b
    have h2 := lcs_le_right a b
    have hpos : 0 < a.length + b.length := Nat.pos_of_ne_zero hs
    have hkey : (400 * lcs a b + (a.length + b.length))
        / (2 * (a.length + b.length)) < 101 := by
      rw [Nat.div_lt_iff_lt_mul (by omega : 0 < 2 * (a.length + b.length))]
      omega
    omega

lemma match_condition_some {mr : Nat} {e cur : Str} {r : Nat}
    (h : match_condition mr e cur = some r) :
    mr ≤ r ∧ (r = mr ∨ r ≤ 100) := by
  unfold match_condition at h
  split at h
  · simp only [Option.some.injEq] at h; omega
  · split at h
    · simp only [Option.some.injEq] at h; omega
    · split at h
      · rename_i hgt
        simp only [Option.some.injEq] at h
        subst h
        exact ⟨le_of_lt hgt, Or.inr (fuzz_ratio_le_100 _ _)⟩
      · exact absurd h (by simp)

lemma match_condition_isSome (mr : Nat) (e cur : Str) :
    (match_condition mr e cur).isSome = true ↔
      (cur = lowerStr e ∨ lowerStr e <+: cur ∨
        mr < fuzz_ratio (lowerStr e) cur) := by
  unfold match_condition
  split
  · rename_i h; simp [h]
  · split
    · rename_i h1 h2; simp [h2]
    · split
      · rename_i h1 h2 h3; simp [h3]
      · rename_i h1 h2 h3
        simp only [Option.isSome_none, Bool.false_eq_true, false_iff]
        push_neg
        exact ⟨h1, h2, by omega⟩

lemma tryMatchEntry_some {mr : Nat} {label : Str} {tokens : List NlpToken}
    {indices : List Nat} {i : Nat} {e : Str} {c : Nat} {s : SpanR}
    (h : tryMatchEntry mr label tokens indices i e = some (c, s)) :
    c = (splitWs e).length ∧ i + c ≤ tokens.length ∧
    s.label = label ∧ s.start = indices.getD i 0 ∧
    s.stop = indices.getD (i + c - 1) 0
      + (((tokens.drop i).take c).getLastD ⟨[]⟩).text.length ∧
    ∃ r : Nat, match_condition mr e (window_text tokens i c) = some r ∧
      s.score = (r : ℚ) := by
  simp only [tryMatchEntry] at h
  split at h
  · exact absurd h (by simp)
  · rename_i hn
    rcases hm : match_condition mr e
        (window_text tokens i (splitWs e).length) with _ | r
    · rw [hm] at h; exact absurd h (by simp)
    · rw [hm] at h
      simp only [Option.some.injEq, Prod.mk.injEq] at h
      obtain ⟨rfl, rfl⟩ := h
      exact ⟨rfl, by omega, rfl, rfl, rfl, r, hm, rfl⟩

lemma first_match_some {mr : Nat} {label : Str} {tokens : List NlpToken}
    {indices : List Nat} {i : Nat} {e : Str} {c : Nat} {s : SpanR} :
    ∀ {l : List Str},
      first_match mr label tokens indices i l = some (e, c, s) →
      ∃ l₁ l₂, l = l₁ ++ e :: l₂ ∧
        (∀ x ∈ l₁, tryMatchEntry mr label tokens indices i x = none) ∧
        tryMatchEntry mr label tokens indices i e = some (c, s) := by
  intro l
  induction l with
  | nil => intro h; exact absurd h (by simp [first_match])
  | cons x xs ih =>
    intro h
    unfold first_match at h
    rcases hx : tryMatchEntry mr label tokens indices i x with _ | ⟨cx, sx⟩
    · rw [hx] at h
      obtain ⟨l₁, l₂, rfl, hnone, hsome⟩ := ih h
      exact ⟨x :: l₁, l₂, rfl, by
        intro y hy
        rcases List.mem_cons.mp hy with rfl | hy'
        · exact hx
        · exact hnone y hy', hsome⟩
    · rw [hx] at h
      simp only [Option.some.injEq, Prod.mk.injEq] at h
      obtain ⟨rfl, rfl, rfl⟩ := h
      exact ⟨[], xs, rfl, by simp, hx⟩

lemma analyze_loop_mem {mr : Nat} {label : Str} {tokens : List NlpToken}
    {indices : List Nat} {sortedDenyList : List Str} {s : SpanR} :
    ∀ {fuel i : Nat},
      s ∈ analyze_loop mr label tokens indices sortedDenyList i fuel →
      ∃ j e c, first_match mr label tokens indices j sortedDenyList
          = some (e, c, s) := by
  intro fuel
  induction fuel with
  | zero => intro i h; exact absurd h (by simp [analyze_loop])
  | succ n ih =>
    intro i h
    unfold analyze_loop at h
    split at h
    · rcases hf : first_match mr label tokens indices i sortedDenyList
          with _ | ⟨e, c, s'⟩
      · rw [hf] at h
        exact ih h
      · rw [hf] at h
        rcases List.mem_cons.mp h with rfl | h'
        · exact ⟨i, e, c, hf⟩
        · exact ih h'
    · exact absurd h (by simp)

/-- **C5** (counterexample).  The claim says every span score is in
`[0,1]`; the word-list recognizer scores an exact match with
`self.match_ratio = 91` (a fuzzywuzzy percentage), which is far outside
`[0,1]`. -/
theorem c5_score_not_in_unit_interval_counterexample :
    GenericWordListRecognizer.analyze 91 ["secretcode".toList]
      "OTHER".toList [⟨"secretcode".toList⟩] [0]
      = [⟨"OTHER".toList, 0, 10, (91 : ℚ)⟩] ∧
    ¬ ((91 : ℚ) ≤ 1) := by
  constructor
  · rfl
  · norm_num

/-- **C5** (amended).  Every span produced by
`GenericWordListRecognizer.analyze` has a score on the fuzzywuzzy
percent scale: at least the configured match ratio (91 in this
repository's constructions) and at most 100 — not in `[0,1]`. -/
theorem c5_scores_on_percent_scale_amended (matchRatio : Nat)
    (denyList : List Str) (label : Str) (tokens : List NlpToken)
    (indices : List Nat) (hmr : matchRatio ≤ 100) :
    ∀ s ∈ GenericWordListRecognizer.analyze matchRatio denyList label
        tokens indices,
      (matchRatio : ℚ) ≤ s.score ∧ s.score ≤ 100 := by
  intro s hs
  obtain ⟨j, e, c, hf⟩ := analyze_loop_mem hs
  obtain ⟨l₁, l₂, _, _, htm⟩ := first_match_some hf
  obtain ⟨_, _, _, _, _, r, hmc, hscore⟩ := tryMatchEntry_some htm
  obtain ⟨hle, hub⟩ := match_condition_some hmc
  rw [hscore]
  constructor
  · exact_mod_cast hle
  · rcases hub with rfl | hub
    · exact_mod_cast hmr
    · exact_mod_cast hub

/-- Witness for `c5_scores_on_percent_scale_amended` on a concrete
fuzzy-matching input. -/
theorem c5_scores_on_percent_scale_amended_witness :
    (91 : ℚ) ≤ (⟨"OTHER".toList, 0, 10, (91 : ℚ)⟩ : SpanR).score ∧
      (⟨"OTHER".toList, 0, 10, (91 : ℚ)⟩ : SpanR).score ≤ 100 :=
  c5_scores_on_percent_scale_amended 91 ["secretcode".toList]
    "OTHER".toList [⟨"secretcode".toList⟩] [0] (by decide)
    ⟨"OTHER".toList, 0, 10, (91 : ℚ)⟩ (by decide)

/-- **C6** (counterexample).  The claim says a window matches exactly
when it equals the entry case-insensitively or the similarity ratio is
at least the threshold.  But the code has a third branch: a window that
merely *starts with* the entry matches too.  With entry `"ab"` and the
single token `"abzzzzzzzzzzzzzzzz"`, the recognizer matches (and emits
a span) although the texts differ and the similarity ratio is 20,
far below the threshold 91. -/
theorem c6_startswith_counterexample :
    tryMatchEntry 91 "OTHER".toList [⟨"abzzzzzzzzzzzzzzzz".toList⟩] [0] 0
        "ab".toList
      = some (1, ⟨"OTHER".toList, 0, 18, (91 : ℚ)⟩) ∧
    window_text [⟨"abzzzzzzzzzzzzzzzz".toList⟩] 0 1 ≠ lowerStr "ab".toList ∧
    fuzz_ratio (lowerStr "ab".toList)
        (window_text [⟨"abzzzzzzzzzzzzzzzz".toList⟩] 0 1) = 20 ∧
    GenericWordListRecognizer.analyze 91 ["ab".toList] "OTHER".toList
        [⟨"abzzzzzzzzzzzzzzzz".toList⟩] [0]
      = [⟨"OTHER".toList, 0, 18, (91 : ℚ)⟩] := by
  refine ⟨rfl, by decide, by decide, rfl⟩

/-- **C6** (amended).  For each candidate token window, the recognizer
matches exactly when the window fits in the token stream and the window
text equals the entry case-insensitively, or starts with the entry
(both scored with the configured match ratio), or the fuzzy similarity
ratio *strictly* exceeds the configured threshold (scored with the
computed ratio); no other condition produces a match. -/
theorem c6_match_condition_amended (matchRatio : Nat) (label : Str)
    (tokens : List NlpToken) (indices : List Nat) (i : Nat) (e : Str) :
    ((tryMatchEntry matchRatio label tokens indices i e).isSome = true ↔
      i + (splitWs e).length ≤ tokens.length ∧
        (window_text tokens i (splitWs e).length = lowerStr e ∨
         lowerStr e <+: window_text tokens i (splitWs e).length ∨
         matchRatio < fuzz_ratio (lowerStr e)
            (window_text tokens i (splitWs e).length))) ∧
    (∀ c s, tryMatchEntry matchRatio label tokens indices i e
        = some (c, s) →
      ((window_text tokens i (splitWs e).length = lowerStr e ∨
        lowerStr e <+: window_text tokens i (splitWs e).length) →
        s.score = (matchRatio : ℚ)) ∧
      (¬ (window_text tokens i (splitWs e).length = lowerStr e ∨
          lowerStr e <+: window_text tokens i (splitWs e).length) →
        s.score = (fuzz_ratio (lowerStr e)
          (window_text tokens i (splitWs e).length) : ℚ))) := by
  constructor
  · simp only [tryMatchEntry]
    split
    · rename_i hn
      simp only [Option.isSome_none, Bool.false_eq_true, false_iff]
      intro hcon
      omega
    · rename_i hn
      rcases hm : match_condition matchRatio e
          (window_text tokens i (splitWs e).length) with _ | r
      · simp only [hm, Option.isSome_none, Bool.false_eq_true, false_iff]
        intro hcon
        have hsome : (match_condition matchRatio e
            (window_text tokens i (splitWs e).length)).isSome = true :=
          (match_condition_isSome _ _ _).mpr hcon.2
        rw [hm] at hsome
        exact absurd hsome (by simp)
      · simp only [hm, Option.isSome_some, true_iff]
        refine ⟨by omega, (match_condition_isSome _ _ _).mp ?_⟩
        rw [hm]
        rfl
  · intro c s h
    obtain ⟨hceq, _, _, _, _, r, hmc, hscore⟩ := tryMatchEntry_some h
    subst hceq
    unfold match_condition at hmc
    constructor
    · intro hcase
      rcases hcase with heq | hpre
      · rw [if_pos heq] at hmc
        simp only [Option.some.injEq] at hmc
        rw [hscore, ← hmc]
      · by_cases heq : window_text tokens i (splitWs e).length = lowerStr e
        · rw [if_pos heq] at hmc
          simp only [Option.some.injEq] at hmc
          rw [hscore, ← hmc]
        · rw [if_neg heq, if_pos hpre] at hmc
          simp only [Option.some.injEq] at hmc
          rw [hscore, ← hmc]
    · intro hcase
      push_neg at hcase
      rw [if_neg hcase.1, if_neg hcase.2] at hmc
      split at hmc
      · simp only [Option.some.injEq] at hmc
        rw [hscore, ← hmc]
      · exact absurd hmc (by simp)

/-- Witness for `c6_match_condition_amended`: a window that starts with
the entry matches and is scored with the match ratio. -/
theorem c6_match_condition_amended_witness :
    (tryMatchEntry 91 "OTHER".toList [⟨"abcdefzzzz".toList⟩] [0] 0
        "abcdef".toList).isSome = true ∧
    (⟨"OTHER".toList, 0, 10, (91 : ℚ)⟩ : SpanR).score = ((91 : Nat) : ℚ) :=
  ⟨(c6_match_condition_amended 91 "OTHER".toList [⟨"abcdefzzzz".toList⟩]
        [0] 0 "abcdef".toList).1.mpr (by decide),
    ((c6_match_condition_amended 91 "OTHER".toList [⟨"abcdefzzzz".toList⟩]
        [0] 0 "abcdef".toList).2 1 ⟨"OTHER".toList, 0, 10, (91 : ℚ)⟩
        (by decide)).1 (by decide)⟩

/-- **C8** (counterexample).  The claim says entries shorter than the
minimum-length floor are ignored; in fact the constructor *lowers* the
floor to the shortest entry's length and `analyze` never consults it:
the two-character entry `"ab"` (below the configured floor of 10)
produces a span. -/
theorem c8_short_entry_matches_counterexample :
    GenericWordListRecognizer.init_minimum_word_length ["ab".toList] = 2 ∧
    ("ab".toList : Str).length
        < GenericWordListRecognizer.default_minimum_word_length ∧
    GenericWordListRecognizer.analyze 91 ["ab".toList] "OTHER".toList
        [⟨"ab".toList⟩] [0]
      = [⟨"OTHER".toList, 0, 2, (91 : ℚ)⟩] := by
  refine ⟨rfl, by decide, rfl⟩

lemma foldl_min_le_init : ∀ (l : List Str) (acc : Nat),
    l.foldl (fun m w => if w.length < m then w.length else m) acc ≤ acc := by
  intro l
  induction l with
  | nil => intro acc; simp
  | cons x xs ih =>
    intro acc
    simp only [List.foldl_cons]
    split
    · exact le_trans (ih _) (by omega)
    · exact ih acc

lemma foldl_min_le_mem : ∀ (l : List Str) (acc : Nat) (w : Str), w ∈ l →
    l.foldl (fun m w => if w.length < m then w.length else m) acc
      ≤ w.length := by
  intro l
  induction l with
  | nil => intro acc w hw; cases hw
  | cons x xs ih =>
    intro acc w hw
    simp only [List.foldl_cons]
    rcases List.mem_cons.mp hw with rfl | hw'
    · split
      · exact le_trans (foldl_min_le_init _ _) (by omega)
      · rename_i hge
        exact le_trans (foldl_min_le_init _ _) (by omega)
    · exact ih _ w hw'

/-- **C8** (amended).  The constructor lowers `minimum_word_length` to
at most every deny-list entry's length (starting from the configured
default 10), and the matching loop never consults it: entries shorter
than the default floor still produce spans (witnessed by the
two-character entry `"cd"`). -/
theorem c8_min_length_floor_amended :
    (∀ (denyList : List Str) (w : Str), w ∈ denyList →
      GenericWordListRecognizer.init_minimum_word_length denyList
        ≤ w.length) ∧
    (∀ denyList : List Str,
      GenericWordListRecognizer.init_minimum_word_length denyList
        ≤ GenericWordListRecognizer.default_minimum_word_length) ∧
    GenericWordListRecognizer.analyze 91 ["cd".toList] "OTHER".toList
        [⟨"cd".toList⟩] [0]
      = [⟨"OTHER".toList, 0, 2, (91 : ℚ)⟩] :=
  ⟨fun dl w hw => foldl_min_le_mem dl _ w hw,
    fun dl => foldl_min_le_init dl _, rfl⟩

/-- Witness for `c8_min_length_floor_amended`: the floor computed for a
concrete deny list is at most each entry's length. -/
theorem c8_min_length_floor_amended_witness :
    GenericWordListRecognizer.init_minimum_word_length
        ["abc".toList, "defghijklmnop".toList] ≤ ("abc".toList : Str).length :=
  c8_min_length_floor_amended.1 ["abc".toList, "defghijklmnop".toList]
    "abc".toList (by decide)

/-! ### Sorting and cursor-loop lemmas for C7 -/

lemma insertDescBy_perm (k : Str → Nat) (x : Str) :
    ∀ l : List Str, List.Perm (insertDescBy k x l) (x :: l) := by
  intro l
  induction l with
  | nil => simp [insertDescBy]
  | cons y ys ih =>
    unfold insertDescBy
    split
    · exact List.Perm.refl _
    · exact (ih.cons y).trans (List.Perm.swap x y ys)

lemma sortDescBy_perm (k : Str → Nat) :
    ∀ l : List Str, List.Perm (sortDescBy k l) l := by
  intro l
  induction l with
  | nil => simp [sortDescBy]
  | cons x xs ih =>
    unfold sortDescBy
    exact (insertDescBy_perm k x (sortDescBy k xs)).trans (ih.cons x)

lemma insertDescBy_sorted (k : Str → Nat) (x : Str) :
    ∀ l : List Str, List.Pairwise (fun a b => k b ≤ k a) l →
      List.Pairwise (fun a b => k b ≤ k a) (insertDescBy k x l) := by
  intro l
  induction l with
  | nil => intro _; simp [insertDescBy]
  | cons y ys ih =>
    intro h
    obtain ⟨hy, hys⟩ := List.pairwise_cons.mp h
    unfold insertDescBy
    split
    · rename_i hle
      refine List.pairwise_cons.mpr ⟨?_, h⟩
      intro z hz
      rcases List.mem_cons.mp hz with rfl | hz'
      · exact hle
      · exact le_trans (hy z hz') hle
    · rename_i hgt
      refine List.pairwise_cons.mpr ⟨?_, ih hys⟩
      intro z hz
      rcases List.mem_cons.mp ((insertDescBy_perm k x ys).mem_iff.mp hz)
        with rfl | hz'
      · omega
      · exact hy z hz'

lemma sortDescBy_sorted (k : Str → Nat) :
    ∀ l : List Str, List.Pairwise (fun a b => k b ≤ k a) (sortDescBy k l) := by
  intro l
  induction l with
  | nil => simp [sortDescBy]
  | cons x xs ih => exact insertDescBy_sorted k x _ ih

lemma indices_mono {tokens : List NlpToken} {indices : List Nat}
    (hmono : ∀ k, k + 1 < tokens.length →
      indices.getD k 0 + (tokens.getD k ⟨[]⟩).text.length
        ≤ indices.getD (k + 1) 0) :
    ∀ j m, j < m → m < tokens.length →
      indices.getD j 0 + (tokens.getD j ⟨[]⟩).text.length
        ≤ indices.getD m 0 := by
  intro j m
  induction m with
  | zero => intro hjm _; omega
  | succ m ih =>
    intro hjm hm
    by_cases hcase : j = m
    · subst hcase
      exact hmono j hm
    · have h1 := ih (by omega) (by omega)
      have h2 := hmono m hm
      omega

lemma take_drop_getLastD {tokens : List NlpToken} {i c : Nat}
    (hc : 1 ≤ c) (hn : i + c ≤ tokens.length) :
    ((tokens.drop i).take c).getLastD ⟨[]⟩ = tokens.getD (i + c - 1) ⟨[]⟩ := by
  have hwlen : ((tokens.drop i).take c).length = c := by
    rw [List.length_take, List.length_drop]
    omega
  rw [List.getLastD_eq_getLast?, List.getLast?_eq_getElem?, hwlen,
    List.getD_eq_getElem?_getD]
  congr 1
  rw [List.getElem?_take, List.getElem?_drop]
  rw [if_pos (by omega)]
  congr 1
  omega

lemma tryMatchEntry_shape {mr : Nat} {label : Str} {tokens : List NlpToken}
    {indices : List Nat} {i : Nat} {e : Str} {c : Nat} {s : SpanR}
    (hc : splitWs e ≠ [])
    (h : tryMatchEntry mr label tokens indices i e = some (c, s)) :
    1 ≤ c ∧ i + c ≤ tokens.length ∧ s.start = indices.getD i 0 ∧
    s.stop = indices.getD (i + c - 1) 0
      + (tokens.getD (i + c - 1) ⟨[]⟩).text.length := by
  obtain ⟨hceq, hn, _, hstart, hstop, _⟩ := tryMatchEntry_some h
  have hc1 : 1 ≤ c := by
    rw [hceq]
    exact List.length_pos.mpr hc
  refine ⟨hc1, hn, hstart, ?_⟩
  rw [hstop, take_drop_getLastD hc1 hn]

lemma analyze_loop_shape {mr : Nat} {label : Str} {tokens : List NlpToken}
    {indices : List Nat} {sorted : List Str}
    (hsplit : ∀ e ∈ sorted, splitWs e ≠ []) :
    ∀ (fuel i : Nat) (s : SpanR),
      s ∈ analyze_loop mr label tokens indices sorted i fuel →
      ∃ j c, i ≤ j ∧ 1 ≤ c ∧ j + c ≤ tokens.length ∧
        s.start = indices.getD j 0 ∧
        s.stop = indices.getD (j + c - 1) 0
          + (tokens.getD (j + c - 1) ⟨[]⟩).text.length := by
  intro fuel
  induction fuel with
  | zero => intro i s h; exact absurd h (by simp [analyze_loop])
  | succ n ih =>
    intro i s h
    unfold analyze_loop at h
    split at h
    · rcases hf : first_match mr label tokens indices i sorted
          with _ | ⟨e, c, s0⟩
      · rw [hf] at h
        obtain ⟨j, c', h1, h2, h3, h4, h5⟩ := ih (i + 1) s h
        exact ⟨j, c', by omega, h2, h3, h4, h5⟩
      · rw [hf] at h
        obtain ⟨l₁, l₂, hdec, _, htm⟩ := first_match_some hf
        have he : e ∈ sorted := by rw [hdec]; simp
        obtain ⟨hc1, hn, hstart, hstop⟩ :=
          tryMatchEntry_shape (hsplit e he) htm
        rcases List.mem_cons.mp h with rfl | h'
        · exact ⟨i, c, le_refl i, hc1, hn, hstart, hstop⟩
        · obtain ⟨j, c', h1, h2, h3, h4, h5⟩ := ih (i + c) s h'
          exact ⟨j, c', by omega, h2, h3, h4, h5⟩
    · exact absurd h (by simp)

lemma analyze_loop_pairwise {mr : Nat} {label : Str}
    {tokens : List NlpToken} {indices : List Nat} {sorted : List Str}
    (hsplit : ∀ e ∈ sorted, splitWs e ≠ [])
    (hmono : ∀ k, k + 1 < tokens.length →
      indices.getD k 0 + (tokens.getD k ⟨[]⟩).text.length
        ≤ indices.getD (k + 1) 0) :
    ∀ (fuel i : Nat),
      List.Pairwise (fun a b => a.stop ≤ b.start)
        (analyze_loop mr label tokens indices sorted i fuel) := by
  intro fuel
  induction fuel with
  | zero => intro i; simp [analyze_loop]
  | succ n ih =>
    intro i
    unfold analyze_loop
    split
    · rcases hf : first_match mr label tokens indices i sorted
          with _ | ⟨e, c, s0⟩
      · exact ih (i + 1)
      · refine List.pairwise_cons.mpr ⟨?_, ih (i + c)⟩
        intro b hb
        obtain ⟨l₁, l₂, hdec, _, htm⟩ := first_match_some hf
        have he : e ∈ sorted := by rw [hdec]; simp
        obtain ⟨hc1, hn, _, hstop⟩ := tryMatchEntry_shape (hsplit e he) htm
        obtain ⟨j, c', hj, hc', hjc, hbstart, _⟩ :=
          analyze_loop_shape hsplit n (i + c) b hb
        rw [hstop, hbstart]
        by_cases hlt : i + c - 1 < j
        · exact indices_mono hmono (i + c - 1) j hlt (by omega)
        · have : j = i + c - 1 ∨ j < i + c - 1 := by omega
          omega
    · simp

/-- **C7** (confirmed).  On every well-formed input (non-blank deny
entries — blank ones would crash the Python source with an `IndexError`
— and token character offsets that are consistent: each token ends at
or before the next one starts), the recognizer compares entries
longest-phrase-first (the comparison list is a permutation of the deny
list sorted by token count, descending); the emitted spans are pairwise
non-overlapping (each span ends at or before the next begins), because
a match consumes its window and the cursor advances past it; and at any
position the selected entry's token count is at least that of every
other deny entry matching there — the longest applicable phrase is
preferred. -/
theorem c7_no_overlap_longest_preferred (matchRatio : Nat)
    (denyList : List Str) (label : Str) (tokens : List NlpToken)
    (indices : List Nat)
    (hsplit : ∀ e ∈ denyList, splitWs e ≠ [])
    (hmono : ∀ k, k + 1 < tokens.length →
      indices.getD k 0 + (tokens.getD k ⟨[]⟩).text.length
        ≤ indices.getD (k + 1) 0) :
    (List.Pairwise (fun a b => tokenCount b ≤ tokenCount a)
        (sortDescBy tokenCount denyList) ∧
      List.Perm (sortDescBy tokenCount denyList) denyList) ∧
    List.Pairwise (fun a b => a.stop ≤ b.start)
      (GenericWordListRecognizer.analyze matchRatio denyList label tokens
        indices) ∧
    (∀ i e c s,
      first_match matchRatio label tokens indices i
          (sortDescBy tokenCount denyList) = some (e, c, s) →
      ∀ e' ∈ denyList,
        (tryMatchEntry matchRatio label tokens indices i e').isSome = true →
        tokenCount e' ≤ tokenCount e) := by
  have hsplit' : ∀ e ∈ sortDescBy tokenCount denyList, splitWs e ≠ [] :=
    fun e he => hsplit e ((sortDescBy_perm tokenCount denyList).mem_iff.mp he)
  refine ⟨⟨sortDescBy_sorted tokenCount denyList,
    sortDescBy_perm tokenCount denyList⟩, ?_, ?_⟩
  · exact analyze_loop_pairwise hsplit' hmono tokens.length 0
  · intro i e c s hf e' he' hsome
    obtain ⟨l₁, l₂, hdec, hnone, htm⟩ := first_match_some hf
    have he'' : e' ∈ sortDescBy tokenCount denyList :=
      (sortDescBy_perm tokenCount denyList).mem_iff.mpr he'
    rw [hdec] at he''
    rcases List.mem_append.mp he'' with h1 | h2
    · rw [hnone e' h1] at hsome
      exact absurd hsome (by simp)
    · rcases List.mem_cons.mp h2 with rfl | h2'
      · exact le_refl _
      · have hsorted := sortDescBy_sorted tokenCount denyList
        rw [hdec] at hsorted
        have := (List.pairwise_append.mp hsorted).2.1
        exact (List.pairwise_cons.mp this).1 e' h2'

/-- Witness for `c7_no_overlap_longest_preferred` on a concrete
two-entry deny list and a four-token stream. -/
theorem c7_no_overlap_longest_preferred_witness :
    List.Pairwise (fun a b => a.stop ≤ b.start)
      (GenericWordListRecognizer.analyze 91
        ["secret code".toList, "secret".toList] "OTHER".toList
        [⟨"my".toList⟩, ⟨"secret".toList⟩, ⟨"code".toList⟩, ⟨"here".toList⟩]
        [0, 3, 10, 15]) :=
  (c7_no_overlap_longest_preferred 91
    ["secret code".toList, "secret".toList] "OTHER".toList
    [⟨"my".toList⟩, ⟨"secret".toList⟩, ⟨"code".toList⟩, ⟨"here".toList⟩]
    [0, 3, 10, 15] (by decide)
    (by intro k hk
        simp only [List.length_cons, List.length_nil] at hk
        have hk3 : k < 3 := by omega
        interval_cases k <;> decide)).2.1

/-! ### Address recognizer lemmas for C9 -/

lemma survivesGuards_len_pos {doc : List AToken} {m : Nat × Nat}
    (h : survivesGuards doc m = true) : 1 ≤ m.2 - m.1 := by
  by_contra hlen
  have hz : m.2 - m.1 = 0 := by omega
  have hspan : spanTokens doc m = [] := by
    unfold spanTokens
    rw [hz]
    simp
  unfold survivesGuards at h
  rw [hspan] at h
  simp at h

lemma address_scan_spec (score : ℚ) (anonymizeFullString : Bool)
    (label : Str) (docText : Str) (doc : List AToken) :
    ∀ (ms pre : List (Nat × Nat)) (best : Option SpanR) (maxLen : Nat),
    (best = none → maxLen = 0 ∧
      ∀ m ∈ pre, survivesGuards doc m = false) →
    (∀ b, best = some b → ∃ l₁ m l₂, pre = l₁ ++ m :: l₂ ∧
      survivesGuards doc m = true ∧
      b = renderMatch score anonymizeFullString label docText doc m ∧
      maxLen = m.2 - m.1 ∧
      (∀ m' ∈ pre, survivesGuards doc m' = true →
        m'.2 - m'.1 ≤ maxLen) ∧
      (∀ m' ∈ l₁, survivesGuards doc m' = true →
        m'.2 - m'.1 < maxLen)) →
    ∀ b, address_scan score anonymizeFullString label docText doc ms
        best maxLen = some b →
      ∃ l₁ m l₂, pre ++ ms = l₁ ++ m :: l₂ ∧
        survivesGuards doc m = true ∧
        b = renderMatch score anonymizeFullString label docText doc m ∧
        (∀ m' ∈ pre ++ ms, survivesGuards doc m' = true →
          m'.2 - m'.1 ≤ m.2 - m.1) ∧
        (∀ m' ∈ l₁, survivesGuards doc m' = true →
          m'.2 - m'.1 < m.2 - m.1) := by
  intro ms
  induction ms with
  | nil =>
    intro pre best maxLen hnone hsome b hb
    rw [address_scan] at hb
    obtain ⟨l₁, m, l₂, hdec, hsurv, hb', hmax, hall, hstrict⟩ := hsome b hb
    refine ⟨l₁, m, l₂, by rw [List.append_nil]; exact hdec, hsurv, hb', ?_, ?_⟩
    · intro m' hm' hs'
      rw [← hmax]
      exact hall m' (by simpa using hm') hs'
    · intro m' hm' hs'
      rw [← hmax]
      exact hstrict m' hm' hs'
  | cons m ms ih =>
    intro pre best maxLen hnone hsome b hb
    rw [address_scan] at hb
    split at hb
    · rename_i hcond
      obtain ⟨hsurv, hgt⟩ := hcond
      have hres := ih (pre ++ [m])
        (some (renderMatch score anonymizeFullString label docText doc m))
        (m.2 - m.1) (by intro hcon; exact absurd hcon (by simp))
        (by
          intro b' hb'
          simp only [Option.some.injEq] at hb'
          subst hb'
          refine ⟨pre, m, [], rfl, hsurv, rfl, rfl, ?_, ?_⟩
          · intro m' hm' hs'
            rcases List.mem_append.mp hm' with h1 | h2
            · rcases hbest : best with _ | b0
              · obtain ⟨_, hnos⟩ := hnone hbest
                rw [hnos m' h1] at hs'
                cases hs'
              · obtain ⟨_, _, _, _, _, _, hmax, hall, _⟩ := hsome b0 hbest
                have := hall m' h1 hs'
                omega
            · have heq := List.mem_singleton.mp h2
              subst heq
              exact le_refl _
          · intro m' hm' hs'
            rcases hbest : best with _ | b0
            · obtain ⟨_, hnos⟩ := hnone hbest
              rw [hnos m' hm'] at hs'
              cases hs'
            · obtain ⟨_, _, _, _, _, _, hmax, hall, _⟩ := hsome b0 hbest
              have := hall m' hm' hs'
              omega)
        b hb
      obtain ⟨l₁, mm, l₂, hdec, h2, h3, h4, h5⟩ := hres
      refine ⟨l₁, mm, l₂, by rw [← hdec, List.append_assoc]; rfl, h2, h3,
        ?_, h5⟩
      intro m' hm' hs'
      refine h4 m' ?_ hs'
      rw [List.append_assoc]
      exact hm'
    · rename_i hcond
      push_neg at hcond
      have hres := ih (pre ++ [m]) best maxLen
        (by
          intro hbest
          obtain ⟨hmax0, hnos⟩ := hnone hbest
          refine ⟨hmax0, ?_⟩
          intro m' hm'
          rcases List.mem_append.mp hm' with h1 | h2
          · exact hnos m' h1
          · have heq := List.mem_singleton.mp h2
            by_contra hs'
            have hs'' : survivesGuards doc m' = true := by
              cases hsg : survivesGuards doc m'
              · exact absurd hsg hs'
              · rfl
            rw [heq] at hs''
            have h10 := hcond hs''
            have h11 := survivesGuards_len_pos hs''
            omega)
        (by
          intro b0 hbest
          obtain ⟨l₁, mm, l₂, hdec, hsv, hb', hmax, hall, hstrict⟩ :=
            hsome b0 hbest
          refine ⟨l₁, mm, l₂ ++ [m], by rw [hdec]; simp, hsv, hb', hmax,
            ?_, hstrict⟩
          intro m' hm' hs'
          rcases List.mem_append.mp hm' with h1 | h2
          · exact hall m' h1 hs'
          · have heq := List.mem_singleton.mp h2
            subst heq
            have := hcond hs'
            omega)
        b hb
      obtain ⟨l₁, mm, l₂, hdec, h2, h3, h4, h5⟩ := hres
      refine ⟨l₁, mm, l₂, by rw [← hdec, List.append_assoc]; rfl, h2, h3,
        ?_, h5⟩
      intro m' hm' hs'
      refine h4 m' ?_ hs'
      rw [List.append_assoc]
      exact hm'

/-- **C9** (confirmed).  On every input (document, document text and
matcher output), `SpacyAddressRecognizer.analyze` returns at most one
span; and when it returns one, that span is rendered from a match that
survives the guard clauses, whose raw length `end - start` is maximal
among all surviving matches, and which is the *first* such
maximal-length survivor in the matcher's output order — ties between
equally long matches go to the earlier entry, i.e. to the first pattern
registered, since the matcher lists matches of earlier-registered
patterns first. -/
theorem c9_single_longest_match (score : ℚ) (anonymizeFullString : Bool)
    (label : Str) (docText : Str) (doc : List AToken)
    (matchList : List (Nat × Nat)) :
    (SpacyAddressRecognizer.analyze score anonymizeFullString label docText
        doc matchList).length ≤ 1 ∧
    ∀ s ∈ SpacyAddressRecognizer.analyze score anonymizeFullString label
        docText doc matchList,
      ∃ l₁ m l₂, matchList = l₁ ++ m :: l₂ ∧
        survivesGuards doc m = true ∧
        s = renderMatch score anonymizeFullString label docText doc m ∧
        (∀ m' ∈ matchList, survivesGuards doc m' = true →
          m'.2 - m'.1 ≤ m.2 - m.1) ∧
        (∀ m' ∈ l₁, survivesGuards doc m' = true →
          m'.2 - m'.1 < m.2 - m.1) := by
  constructor
  · unfold SpacyAddressRecognizer.analyze
    split <;> simp
  · intro s hs
    unfold SpacyAddressRecognizer.analyze at hs
    split at hs
    · rename_i b hb
      rcases List.mem_singleton.mp hs with rfl
      have := address_scan_spec score anonymizeFullString label docText doc
        matchList [] none 0 (fun _ => ⟨rfl, by simp⟩)
        (fun b0 hb0 => absurd hb0 (by simp)) s hb
      simpa using this
    · exact absurd hs (by simp)

/-- Witness for `c9_single_longest_match`: a document with two
surviving matches of different lengths; the span the recognizer returns
comes from the longest surviving match `(0, 3)`. -/
theorem c9_single_longest_match_witness :
    ∃ l₁ m l₂,
      ([(0, 2), (0, 3)] : List (Nat × Nat)) = l₁ ++ m :: l₂ ∧
      survivesGuards
        [⟨"Liisankatu".toList, 0, false, true, false, false, "LOC".toList⟩,
          ⟨"3".toList, 11, true, false, false, true, "CARDINAL".toList⟩,
          ⟨"B".toList, 13, false, true, false, false, []⟩] m = true ∧
      (⟨"ADDRESS".toList, 11, 14, (8/10 : ℚ)⟩ : SpanR)
        = renderMatch (8/10) false "ADDRESS".toList
            "Liisankatu 3 B".toList
            [⟨"Liisankatu".toList, 0, false, true, false, false,
                "LOC".toList⟩,
              ⟨"3".toList, 11, true, false, false, true, "CARDINAL".toList⟩,
              ⟨"B".toList, 13, false, true, false, false, []⟩] m ∧
      (∀ m' ∈ ([(0, 2), (0, 3)] : List (Nat × Nat)),
        survivesGuards
          [⟨"Liisankatu".toList, 0, false, true, false, false,
              "LOC".toList⟩,
            ⟨"3".toList, 11, true, false, false, true, "CARDINAL".toList⟩,
            ⟨"B".toList, 13, false, true, false, false, []⟩] m' = true →
          m'.2 - m'.1 ≤ m.2 - m.1) ∧
      (∀ m' ∈ l₁,
        survivesGuards
          [⟨"Liisankatu".toList, 0, false, true, false, false,
              "LOC".toList⟩,
            ⟨"3".toList, 11, true, false, false, true, "CARDINAL".toList⟩,
            ⟨"B".toList, 13, false, true, false, false, []⟩] m' = true →
          m'.2 - m'.1 < m.2 - m.1) :=
  (c9_single_longest_match (8/10) false "ADDRESS".toList
    "Liisankatu 3 B".toList
    [⟨"Liisankatu".toList, 0, false, true, false, false, "LOC".toList⟩,
      ⟨"3".toList, 11, true, false, false, true, "CARDINAL".toList⟩,
      ⟨"B".toList, 13, false, true, false, false, []⟩]
    [(0, 2), (0, 3)]).2 ⟨"ADDRESS".toList, 11, 14, (8/10 : ℚ)⟩
    (by exact List.Mem.head _)

end TextAnonymizer
